import Mathlib

/-!
# go-adk-starter-kit: the run driver, the blog pipeline configuration, the reporter

A shallow embedding of the Go sources

* `internal/config/config.go`   (flags, log level, API key),
* `internal/agents/blog/blog.go` (the three-step sequential pipeline),
* `internal/logger/logger.go`   (the reporter `LogBlogOutputs`),
* `cmd/go-adk-starter-kit/main.go` (the run driver),

followed by the properties proved about them.  Side effects (writes to standard output, calls
of the structured logger, reads of the session store, the start of a pipeline run) are recorded
in a trace of `Effect`s, in program order.  The collaborators that live outside the repository
(the model constructor, the agent constructors, the runner, the session service) are taken as
the field values of `cmd.World`: the driver is a function of their outcomes.
-/

/-- Go's `error` values are represented by their message. -/
abbrev Error := String

/-! ## Standard library pieces used by the sources -/

namespace slog

/-- Severity of a log record (`slog.Level`, an integer). -/
abbrev Level := Int

def LevelDebug : Level := -4
def LevelInfo : Level := 0
def LevelWarn : Level := 4
def LevelError : Level := 8

end slog

namespace unicode

/-- Go's `unicode.ToLower`: an ASCII rune is handled in line (`A`..`Z` are shifted by
`'a' - 'A'`, every other ASCII rune is returned unchanged); a rune above ASCII is looked up in
the Unicode case table, which is the parameter `caseTable`. -/
def ToLower (caseTable : Char → Char) (r : Char) : Char :=
  if r.toNat ≤ 0x7F then
    if 'A'.toNat ≤ r.toNat ∧ r.toNat ≤ 'Z'.toNat then Char.ofNat (r.toNat + ('a'.toNat - 'A'.toNat))
    else r
  else caseTable r

end unicode

namespace strings

/-- Go's `strings.ToLower`: every rune is mapped through `unicode.ToLower`. -/
def ToLower (caseTable : Char → Char) (s : String) : String :=
  String.mk (s.data.map (unicode.ToLower caseTable))

/-- Go's `strings.Repeat`. -/
def Repeat (s : String) (count : Nat) : String :=
  String.join (List.replicate count s)

end strings

/-! ## `internal/config/config.go` -/

namespace config

/-- Application configuration. -/
structure Config where
  LogLevel : String
  AgentLogger : Bool
  Prompt : String
  deriving DecidableEq, Repr

/-- `New` creates a configuration with default values. -/
def New : Config :=
  { LogLevel := "info", AgentLogger := true, Prompt := "" }

/-- A command line that `flag.Parse` accepts: for each of the three registered flags, the value
given on the command line, or `none` when the flag is omitted. -/
structure CommandLine where
  logLevel : Option String
  agentLogger : Option Bool
  prompt : Option String
  deriving DecidableEq, Repr

/-- `ParseFlags`: each field is the flag's value, or the default registered for it
(`"info"`, `true`, `""`). -/
def ParseFlags (args : CommandLine) : Config :=
  { LogLevel := args.logLevel.getD "info"
    AgentLogger := args.agentLogger.getD true
    Prompt := args.prompt.getD "" }

/-- `GetLogLevel` converts the string log level to a `slog.Level`. -/
def Config.GetLogLevel (caseTable : Char → Char) (c : Config) : slog.Level :=
  let s := strings.ToLower caseTable c.LogLevel
  if s = "debug" then slog.LevelDebug
  else if s = "info" then slog.LevelInfo
  else if s = "error" then slog.LevelError
  else slog.LevelInfo

/-- `GetAPIKey` reads the environment variable `GOOGLE_API_KEY`; the environment is the
lookup function `getenv`. -/
def GetAPIKey (getenv : String → String) : String :=
  getenv "GOOGLE_API_KEY"

end config

/-! ## The agent framework, as far as `blog.Build` uses it -/

namespace model

/-- The model handle handed to the agents (`model.LLM`), known by the name it was created
with. -/
structure LLM where
  Name : String
  deriving DecidableEq, Repr

end model

namespace llmagent

/-- The configuration of one LLM step (`llmagent.Config`), with the fields the sources set. -/
structure Config where
  Name : String
  Model : model.LLM
  Description : String
  Instruction : String
  OutputKey : String
  deriving DecidableEq, Repr

end llmagent

namespace agent

/-- An agent of the framework: a single LLM step carrying its configuration, or a sequential
composite with a name and an ordered list of sub-agents. -/
inductive Agent where
  | llm (cfg : llmagent.Config)
  | sequential (Name : String) (SubAgents : List Agent)
  deriving Repr

/-- The base configuration of a composite (`agent.Config`). -/
structure Config where
  Name : String
  SubAgents : List Agent
  deriving Repr

/-- Name of an agent. -/
def Agent.Name : Agent → String
  | .llm cfg => cfg.Name
  | .sequential n _ => n

/-- Sub-agents of an agent, in declaration order (none for an LLM step). -/
def Agent.SubAgents : Agent → List Agent
  | .llm _ => []
  | .sequential _ subs => subs

/-- Instruction text of an agent (empty for a composite). -/
def Agent.Instruction : Agent → String
  | .llm cfg => cfg.Instruction
  | .sequential _ _ => ""

/-- The `OutputKey` field of an agent; the empty string means that no output key is set. -/
def Agent.OutputKey : Agent → String
  | .llm cfg => cfg.OutputKey
  | .sequential _ _ => ""

/-- The state keys an agent writes: its `OutputKey` when one is set. -/
def Agent.outputKeys (a : Agent) : List String :=
  if a.OutputKey = "" then [] else [a.OutputKey]

/-- Whether the agent is a sequential composite. -/
def Agent.isSequential : Agent → Bool
  | .llm _ => false
  | .sequential _ _ => true

end agent

namespace llmagent

/-- The constructor `llmagent.New`: it either rejects the configuration with an error
(`reject cfg = some err`) or returns the LLM agent carrying that configuration. -/
def New (reject : Config → Option Error) (cfg : Config) : Except Error agent.Agent :=
  match reject cfg with
  | some err => .error err
  | none => .ok (.llm cfg)

end llmagent

namespace sequentialagent

/-- The configuration of a sequential composite (`sequentialagent.Config`). -/
structure Config where
  AgentConfig : agent.Config
  deriving Repr

/-- The constructor `sequentialagent.New`: it either rejects the configuration with an error or
returns the composite with the configured name and sub-agents. -/
def New (reject : Config → Option Error) (cfg : Config) : Except Error agent.Agent :=
  match reject cfg with
  | some err => .error err
  | none => .ok (.sequential cfg.AgentConfig.Name cfg.AgentConfig.SubAgents)

end sequentialagent

/-! ## `internal/agents/blog/blog.go` -/

namespace blog

/-- Session state key for the blog outline. -/
def OutputKeyBlogOutline : String := "blog_outline"
/-- Session state key for the blog draft. -/
def OutputKeyBlogDraft : String := "blog_draft"
/-- Session state key for the final blog. -/
def OutputKeyFinalBlog : String := "final_blog"

/-- The validation outcomes of the two framework constructors that `Build` calls. -/
structure Constructors where
  llmReject : llmagent.Config → Option Error
  seqReject : sequentialagent.Config → Option Error

/-- `Build` creates the sequential agent pipeline (Outline -> Writer -> Editor). -/
def Build (lib : Constructors) (mdl : model.LLM) : Except Error agent.Agent :=
  match llmagent.New lib.llmReject
      { Name := "OutlineAgent"
        Model := mdl
        Description := "Creates blog post outlines"
        Instruction := "Create a blog outline for the given topic with:\n1. A catchy headline\n2. An introduction hook\n3. 2-3 main sections with key points\n4. A concluding thought"
        OutputKey := OutputKeyBlogOutline } with
  | .error err => .error ("failed to create outline agent: " ++ err)
  | .ok outlineAgent =>
  match llmagent.New lib.llmReject
      { Name := "WriterAgent"
        Model := mdl
        Description := "Writes blog posts from outlines"
        Instruction := "Following the outline from the session state under 'blog_outline', write a short blog post (200-300 words) with an engaging and informative tone."
        OutputKey := OutputKeyBlogDraft } with
  | .error err => .error ("failed to create writer agent: " ++ err)
  | .ok writerAgent =>
  match llmagent.New lib.llmReject
      { Name := "EditorAgent"
        Model := mdl
        Description := "Edits and polishes blog post drafts"
        Instruction := "Edit the draft from the session state under 'blog_draft'. Polish the text by fixing grammatical errors, improving flow and sentence structure, and enhancing overall clarity."
        OutputKey := OutputKeyFinalBlog } with
  | .error err => .error ("failed to create editor agent: " ++ err)
  | .ok editorAgent =>
  match sequentialagent.New lib.seqReject
      { AgentConfig :=
          { Name := "BlogPipeline"
            SubAgents := [outlineAgent, writerAgent, editorAgent] } } with
  | .error err => .error ("failed to create sequential agent: " ++ err)
  | .ok sequentialPipeline => .ok sequentialPipeline

/-- `DefaultPrompt` returns a sample prompt for this agent system. -/
def DefaultPrompt : String :=
  "Write a blog post about the benefits of multi-agent systems for software developers"

end blog

namespace strings

/-- Whether the character list `s` starts with `pre`. -/
def startsWith : List Char → List Char → Bool
  | [], _ => true
  | _ :: _, [] => false
  | p :: ps, c :: cs => p == c && startsWith ps cs

/-- Whether `substr` occurs in `s` at some position. -/
def containsChars (substr : List Char) : List Char → Bool
  | [] => startsWith substr []
  | c :: cs => startsWith substr (c :: cs) || containsChars substr cs

/-- Go's `strings.Contains`: `substr` occurs within `s`. -/
def Contains (s substr : String) : Bool :=
  containsChars substr.data s.data

end strings

/-! ## Effects, sessions, events -/

/-- One observable action of the program, recorded in program order. -/
inductive Effect where
  /-- A call `fmt.Printf(format, args...)`; the arguments are recorded as the text they
  format to. -/
  | printf (format : String) (args : List String)
  /-- A call `fmt.Println(line)`. -/
  | println (line : String)
  /-- A call of the structured logger at `level`, with message and key/value attributes. -/
  | log (level : slog.Level) (msg : String) (attrs : List (String × String))
  /-- A call `sessionService.Get` for the given application, user and session. -/
  | sessionGet (appName userID sessionID : String)
  /-- A call `State().Get(key)`. -/
  | stateGet (key : String)
  /-- A call `r.Run(ctx, userID, sessionID, message, runConfig)`; the message is a single text
  part, recorded by its text and role. -/
  | run (userID sessionID text role : String)
  deriving DecidableEq, Repr

namespace slog

/-- The logger built by `logger.New`: a JSON handler on standard output with a minimum
level. -/
structure Logger where
  Level : Level
  deriving DecidableEq, Repr

/-- Whether the handler writes a record of the given level. -/
def Logger.Enabled (l : Logger) (level : slog.Level) : Bool :=
  decide (l.Level ≤ level)

/-- `log.Debug(msg, attrs...)`. -/
def Debug (msg : String) (attrs : List (String × String)) : Effect := .log LevelDebug msg attrs
/-- `log.Info(msg, attrs...)`. -/
def Info (msg : String) (attrs : List (String × String)) : Effect := .log LevelInfo msg attrs
/-- `log.Error(msg, attrs...)`. -/
def Error (msg : String) (attrs : List (String × String)) : Effect := .log LevelError msg attrs

end slog

namespace genai

/-- One part of a content (`genai.Part`); the driver reads its `Text`. -/
structure Part where
  Text : String
  deriving DecidableEq, Repr

/-- The content of an event (`genai.Content`): `Parts` is a slice of pointers to parts
(`[]*genai.Part`), so an element may be nil. -/
structure Content where
  Parts : List (Option Part)
  deriving DecidableEq, Repr

/-- The role of a user message. -/
def RoleUser : String := "user"

end genai

namespace session

/-- The state of a session, seen through its method `Get`, which returns the value stored
under a key (the generated text) or an error when the key does not exist. -/
structure State where
  Get : String → Except Error String

/-- Request of `Service.Get`. -/
structure GetRequest where
  AppName : String
  UserID : String
  SessionID : String
  deriving DecidableEq, Repr

/-- Request of `Service.Create`. -/
structure CreateRequest where
  AppName : String
  UserID : String
  deriving DecidableEq, Repr

/-- A created session, known by its identifier. -/
structure Session where
  ID : String
  deriving DecidableEq, Repr

/-- An event of a run: the author (the step that produced it) and the content, a pointer that
may be nil. -/
structure Event where
  Author : String
  Content : Option genai.Content
  deriving DecidableEq, Repr

/-- The error of the in-memory state for a key that was never written. -/
def ErrStateKeyNotExist : Error := "state key does not exist"

/-- An in-memory state holding the given key/value entries. -/
def mapState (entries : List (String × String)) : State :=
  { Get := fun key =>
      match entries.lookup key with
      | some v => .ok v
      | none => .error ErrStateKeyNotExist }

end session

namespace runner

/-- Configuration of `runner.New`; the session service is the one of the world. -/
structure Config where
  AppName : String
  Agent : agent.Agent

end runner

/-! ## `internal/logger/logger.go` -/

namespace logger

/-- `New` creates a structured logger writing records of at least `level`. -/
def New (level : slog.Level) : slog.Logger :=
  { Level := level }

/-- `AgentLogger` handles logging of agent outputs from session state.  The session service is
present through its method `Get`. -/
structure AgentLogger where
  sessionService : session.GetRequest → Except Error session.State
  appName : String
  userID : String
  logger : slog.Logger

/-- `NewAgentLogger` creates a new agent logger. -/
def NewAgentLogger (sessionService : session.GetRequest → Except Error session.State)
    (appName userID : String) (logger : slog.Logger) : AgentLogger :=
  { sessionService := sessionService, appName := appName, userID := userID, logger := logger }

/-- `LogBlogOutputs` retrieves and logs blog pipeline outputs from session state; the result is
the trace of its effects (the function itself returns nothing). -/
def AgentLogger.LogBlogOutputs (al : AgentLogger) (sessionID : String) : List Effect :=
  let t : List Effect :=
    [ slog.Info "Retrieving blog pipeline outputs" [("sessionID", sessionID)],
      slog.Debug "Agent logger config" [("appName", al.appName), ("userID", al.userID)],
      .printf "\n%s\n" [strings.Repeat "-" 80],
      .println "Agent Outputs (from Session State):",
      .printf "%s\n" [strings.Repeat "-" 80],
      .sessionGet al.appName al.userID sessionID ]
  match al.sessionService { AppName := al.appName, UserID := al.userID, SessionID := sessionID } with
  | .error err =>
    t ++ [slog.Error "Could not retrieve session" [("error", err), ("sessionID", sessionID)]]
  | .ok state =>
  let t := t ++ [slog.Debug "Session retrieved successfully" [("sessionID", sessionID)]]
  -- Log blog outline
  let t := t ++ [Effect.stateGet "blog_outline"] ++
    (match state.Get "blog_outline" with
     | .ok outline =>
       [ .printf "\n[OutlineAgent] Output:\n%v\n" [outline],
         slog.Info "Retrieved blog outline" [("length", toString outline.utf8ByteSize)],
         slog.Debug "Blog outline content" [("outline", outline)] ]
     | .error err => [slog.Error "Blog outline not found in session state" [("error", err)]])
  -- Log blog draft
  let t := t ++ [Effect.stateGet "blog_draft"] ++
    (match state.Get "blog_draft" with
     | .ok draft =>
       [ .printf "\n[WriterAgent] Output:\n%v\n" [draft],
         slog.Info "Retrieved blog draft" [("length", toString draft.utf8ByteSize)],
         slog.Debug "Blog draft content" [("draft", draft)] ]
     | .error err => [slog.Error "Blog draft not found in session state" [("error", err)]])
  -- Log final blog
  let t := t ++ [Effect.stateGet "final_blog"] ++
    (match state.Get "final_blog" with
     | .ok final =>
       [ .printf "\n[EditorAgent] Output:\n%v\n" [final],
         slog.Info "Retrieved final blog" [("length", toString final.utf8ByteSize)],
         slog.Debug "Final blog content" [("final", final)] ]
     | .error err => [slog.Error "Final blog not found in session state" [("error", err)]])
  t

end logger

/-! ## Evaluation of Go expressions that can panic -/

namespace golang

/-- A run-time panic of the Go program. -/
inductive Panic where
  | nilDereference
  | indexOutOfRange (index length : Nat)
  deriving DecidableEq, Repr

/-- Reading through a pointer: panics when the pointer is nil. -/
def deref {α : Type} (p : Option α) : Except Panic α :=
  match p with
  | some a => .ok a
  | none => .error .nilDereference

/-- The index expression `xs[i]`: panics when `i` is not below `len(xs)`. -/
def index {α : Type} (xs : List α) (i : Nat) : Except Panic α :=
  match xs.get? i with
  | some a => .ok a
  | none => .error (.indexOutOfRange i xs.length)

/-- The operator `&&`: the right operand is evaluated only when the left one is true. -/
def andAlso (a b : Except Panic Bool) : Except Panic Bool :=
  match a with
  | .error p => .error p
  | .ok false => .ok false
  | .ok true => b

end golang

/-! ## `cmd/go-adk-starter-kit/main.go` -/

namespace cmd

open golang

/-- The expression `event.Author`. -/
def eventAuthor (event : Option session.Event) : Except Panic String :=
  match deref event with
  | .error p => .error p
  | .ok ev => .ok ev.Author

/-- The expression `event.Content != nil`. -/
def contentNotNil (event : Option session.Event) : Except Panic Bool :=
  match deref event with
  | .error p => .error p
  | .ok ev => .ok ev.Content.isSome

/-- The expression `len(event.Content.Parts) > 0`. -/
def partsNotEmpty (event : Option session.Event) : Except Panic Bool :=
  match deref event with
  | .error p => .error p
  | .ok ev =>
    match deref ev.Content with
    | .error p => .error p
    | .ok content => .ok (decide (content.Parts.length > 0))

/-- The expression `event.Content.Parts[0].Text`: a read through `event`, a read through
`Content`, the index expression, and a read through the pointer `Parts[0]`. -/
def firstPartText (event : Option session.Event) : Except Panic String :=
  match deref event with
  | .error p => .error p
  | .ok ev =>
    match deref ev.Content with
    | .error p => .error p
    | .ok content =>
      match index content.Parts 0 with
      | .error p => .error p
      | .ok partPointer =>
        match deref partPointer with
        | .error p => .error p
        | .ok part => .ok part.Text

/-- The expression `event.Content.Parts[0].Text != ""`. -/
def firstPartTextNotEmpty (event : Option session.Event) : Except Panic Bool :=
  match firstPartText event with
  | .error p => .error p
  | .ok text => .ok (decide (text ≠ ""))

/-- The condition of the second `if` of the loop body:
`event.Content != nil && len(event.Content.Parts) > 0 && event.Content.Parts[0].Text != ""`. -/
def responseCondition (event : Option session.Event) : Except Panic Bool :=
  andAlso (andAlso (contentNotNil event) (partsNotEmpty event)) (firstPartTextNotEmpty event)

/-- The body of the event loop for a pair delivered without error: the effects it performs,
and the panic that stopped it, if any. -/
def loopBody (event : Option session.Event) : List Effect × Option Panic :=
  if event.isNone then
    ([slog.Debug "Received nil event" []], none)
  else
  match eventAuthor event with
  | .error p => ([], some p)
  | .ok author =>
  let t : List Effect :=
    if author ≠ "" then
      [.printf "Agent: %s\n" [author], slog.Debug "Event from agent" [("author", author)]]
    else []
  match responseCondition event with
  | .error p => (t, some p)
  | .ok false => (t, none)
  | .ok true =>
  match firstPartText event with
  | .error p => (t, some p)
  | .ok text =>
    (t ++ [.printf "Response:\n%s\n" [text],
           slog.Debug "Response content length" [("length", toString text.utf8ByteSize)]], none)

/-- How the event loop ends: the stream is exhausted, the body returned from `main`, or the
body panicked. -/
inductive LoopExit where
  | completed
  | returned
  | panicked (p : Panic)
  deriving DecidableEq, Repr

/-- The loop `for event, err := range eventIter`, over the pairs the stream delivers. -/
def processEvents : List (Option session.Event × Option Error) → List Effect × LoopExit
  | [] => ([], .completed)
  | (_, some err) :: _ =>
    ([slog.Error "Error during agent execution" [("error", err)]], .returned)
  | (event, none) :: rest =>
    match loopBody event with
    | (t, some p) => (t, .panicked p)
    | (t, none) => (t ++ (processEvents rest).1, (processEvents rest).2)

/-- The collaborators of `main`, by their outcomes. -/
structure World where
  /-- The Unicode case table behind `strings.ToLower`. -/
  caseTable : Char → Char
  /-- The process environment (`os.Getenv`). -/
  getenv : String → String
  /-- The constructor `gemini.NewModel(ctx, modelName, &genai.ClientConfig{APIKey: apiKey})`. -/
  NewModel : (modelName apiKey : String) → Except Error model.LLM
  /-- The agent constructors behind `blog.Build`. -/
  constructors : blog.Constructors
  /-- The validation of `runner.New`: the error it returns, if any. -/
  runnerReject : runner.Config → Option Error
  /-- The method `Create` of the in-memory session service. -/
  Create : session.CreateRequest → Except Error session.Session
  /-- The event stream of `r.Run` on the runner made from the configuration, for the user,
  session and message text given, in streaming mode `StreamingModeNone`. -/
  Run : runner.Config → (userID sessionID text role : String) →
    List (Option session.Event × Option Error)
  /-- The method `Get` of the session service, as it answers after the run. -/
  Get : session.GetRequest → Except Error session.State

/-- What a run of the process amounts to: the logger it set up, the trace of its effects and
its exit code. -/
structure Result where
  log : slog.Logger
  trace : List Effect
  exitCode : Nat

/-- The function `main` of the run driver. -/
def main (w : World) (args : config.CommandLine) : Result :=
  -- Parse configuration flags
  let cfg := config.ParseFlags args
  -- Initialize structured logger with configured level
  let logLevel := cfg.GetLogLevel w.caseTable
  let log := logger.New logLevel
  let t : List Effect :=
    [ slog.Info "Starting ADK application"
        [("logLevel", cfg.LogLevel), ("agentLogger", toString cfg.AgentLogger)],
      slog.Debug "Debug logging enabled" [] ]
  -- Create Gemini model
  let apiKey := config.GetAPIKey w.getenv
  if apiKey = "" then
    { log := log
      trace := t ++ [slog.Error "GOOGLE_API_KEY environment variable not set" []]
      exitCode := 1 }
  else
  match w.NewModel "gemini-2.5-flash-lite" apiKey with
  | .error err =>
    { log := log, trace := t ++ [slog.Error "Failed to create model" [("error", err)]], exitCode := 1 }
  | .ok model =>
  -- Build the blog agent
  let t := t ++ [slog.Info "Building blog agent pipeline" []]
  match blog.Build w.constructors model with
  | .error err =>
    { log := log, trace := t ++ [slog.Error "Failed to build agent" [("error", err)]], exitCode := 1 }
  | .ok blogAgent =>
  -- Create session service and runner
  let runnerConfig : runner.Config := { AppName := "adk_starter_kit", Agent := blogAgent }
  match w.runnerReject runnerConfig with
  | some err =>
    { log := log, trace := t ++ [slog.Error "Failed to create runner" [("error", err)]], exitCode := 1 }
  | none =>
  -- Create session
  match w.Create { AppName := "adk_starter_kit", UserID := "demo_user" } with
  | .error err =>
    { log := log, trace := t ++ [slog.Error "Failed to create session" [("error", err)]], exitCode := 1 }
  | .ok sess =>
  -- Get prompt from flag or use default
  let prompt := if cfg.Prompt = "" then blog.DefaultPrompt else cfg.Prompt
  let t := t ++
    [ slog.Info "Running blog pipeline" [("prompt", prompt)],
      slog.Debug "Session details" [("sessionID", sess.ID), ("userID", "demo_user")],
      .printf "\n%s\n" [strings.Repeat "=" 80],
      .printf "Blog Pipeline\n" [],
      .printf "%s\n" [strings.Repeat "=" 80],
      .printf "> %s\n\n" [prompt] ]
  -- Run the agent
  let t := t ++ [Effect.run "demo_user" sess.ID prompt genai.RoleUser]
  let eventIter := w.Run runnerConfig "demo_user" sess.ID prompt genai.RoleUser
  -- Process events
  match processEvents eventIter with
  | (tl, .panicked _) => { log := log, trace := t ++ tl, exitCode := 2 }
  | (tl, .returned) => { log := log, trace := t ++ tl, exitCode := 0 }
  | (tl, .completed) =>
  let t := t ++ tl
  -- Log agent outputs if enabled
  let t := t ++
    (if cfg.AgentLogger then
      [slog.Info "Agent logger enabled, retrieving session outputs" []] ++
        (logger.NewAgentLogger w.Get "adk_starter_kit" "demo_user" log).LogBlogOutputs sess.ID
    else
      [slog.Info "Agent logger disabled, skipping session output logging" []])
  let t := t ++
    [ .printf "\n%s\n" [strings.Repeat "=" 80],
      .println "Completed!",
      .printf "%s\n\n" [strings.Repeat "=" 80],
      slog.Info "Application finished successfully" [] ]
  { log := log, trace := t, exitCode := 0 }

end cmd

/-! ## Observations on traces and inputs, used to state the properties -/

/-- The ASCII upper-case variant of a rune (`a`..`z` shifted down, anything else unchanged). -/
def upperASCII (r : Char) : Char :=
  if 'a'.toNat ≤ r.toNat ∧ r.toNat ≤ 'z'.toNat then Char.ofNat (r.toNat - ('a'.toNat - 'A'.toNat))
  else r

/-- The string with every ASCII letter in upper case. -/
def upperASCIIString (s : String) : String :=
  String.mk (s.data.map upperASCII)

/-- Whether an effect is a call of the logger at error level. -/
def Effect.isErrorLog : Effect → Bool
  | .log level _ _ => decide (level = slog.LevelError)
  | _ => false

/-- The error-level logger calls of a trace, in order. -/
def errorLogs (t : List Effect) : List Effect :=
  t.filter Effect.isErrorLog

/-- Whether an effect is a call of `fmt.Printf`. -/
def Effect.isPrintf : Effect → Bool
  | .printf _ _ => true
  | _ => false

/-- The `fmt.Printf` calls of a trace, in order. -/
def printfs (t : List Effect) : List Effect :=
  t.filter Effect.isPrintf

/-- The message texts of the pipeline runs started in a trace (calls of `r.Run`), in order. -/
def runPrompts (t : List Effect) : List String :=
  t.filterMap fun e =>
    match e with
    | .run _ _ text _ => some text
    | _ => none

/-- The state keys read in a trace (calls of `State().Get`), in order. -/
def stateReads (t : List Effect) : List String :=
  t.filterMap fun e =>
    match e with
    | .stateGet key => some key
    | _ => none

/-- Whether the reporter ran in a trace: `LogBlogOutputs` is the only caller of
`sessionService.Get`, and calls it on every invocation. -/
def reporterInvoked (t : List Effect) : Bool :=
  t.any fun e =>
    match e with
    | .sessionGet _ _ _ => true
    | _ => false

/-- The authors printed by the lines `Agent: <author>` of a trace, in order. -/
def agentLines (t : List Effect) : List String :=
  t.filterMap fun e =>
    match e with
    | .printf format [author] => if format = "Agent: %s\n" then some author else none
    | _ => none

/-- No pair of the stream carries an error. -/
def noError (stream : List (Option session.Event × Option Error)) : Prop :=
  ∀ p ∈ stream, p.2 = none

instance (stream : List (Option session.Event × Option Error)) : Decidable (noError stream) := by
  unfold noError
  infer_instance

/-- The authors of the non-nil events of a stream that have a non-empty author, in stream
order. -/
def authors (stream : List (Option session.Event × Option Error)) : List String :=
  stream.filterMap fun p =>
    match p.1 with
    | some ev => if ev.Author = "" then none else some ev.Author
    | none => none

/-- Whether the event is non-nil with a non-nil `Content` whose `Parts` starts with a nil
pointer. -/
def firstPartIsNil (event : Option session.Event) : Bool :=
  match event with
  | some ev =>
    match ev.Content with
    | some content =>
      match content.Parts with
      | none :: _ => true
      | _ => false
    | none => false
  | none => false

/-- Whether a state lookup fails for the key. -/
def isMissing (state : session.State) (key : String) : Bool :=
  match state.Get key with
  | .ok _ => false
  | .error _ => true

/-- The effects of the completion path of `main` (its last four statements). -/
def completionPath : List Effect :=
  [ .printf "\n%s\n" [strings.Repeat "=" 80],
    .println "Completed!",
    .printf "%s\n\n" [strings.Repeat "=" 80],
    slog.Info "Application finished successfully" [] ]

/-- Initialisation succeeds in the world: the API key is set, and model creation, `blog.Build`,
runner creation and session creation return no error, giving the agent and the session. -/
def InitOK (w : cmd.World) (blogAgent : agent.Agent) (sess : session.Session) : Prop :=
  config.GetAPIKey w.getenv ≠ "" ∧
  ∃ mdl, w.NewModel "gemini-2.5-flash-lite" (config.GetAPIKey w.getenv) = .ok mdl ∧
    blog.Build w.constructors mdl = .ok blogAgent ∧
    w.runnerReject { AppName := "adk_starter_kit", Agent := blogAgent } = none ∧
    w.Create { AppName := "adk_starter_kit", UserID := "demo_user" } = .ok sess

/-- The event stream of the run started by `main` once initialisation has given the agent and
the session. -/
def eventStream (w : cmd.World) (args : config.CommandLine) (blogAgent : agent.Agent)
    (sess : session.Session) : List (Option session.Event × Option Error) :=
  w.Run { AppName := "adk_starter_kit", Agent := blogAgent } "demo_user" sess.ID
    (if (config.ParseFlags args).Prompt = "" then blog.DefaultPrompt
     else (config.ParseFlags args).Prompt)
    genai.RoleUser

/-- The prompt that `main` hands to the run: the `--prompt` flag, or the built-in sample when
the flag value is empty. -/
def promptOf (args : config.CommandLine) : String :=
  if (config.ParseFlags args).Prompt = "" then blog.DefaultPrompt
  else (config.ParseFlags args).Prompt

/-- The effects of `main` from its first statement to the call of `r.Run`, when initialisation
succeeds with the session `sess`. -/
def startTrace (args : config.CommandLine) (sess : session.Session) : List Effect :=
  [ slog.Info "Starting ADK application"
      [("logLevel", (config.ParseFlags args).LogLevel),
       ("agentLogger", toString (config.ParseFlags args).AgentLogger)],
    slog.Debug "Debug logging enabled" [],
    slog.Info "Building blog agent pipeline" [],
    slog.Info "Running blog pipeline" [("prompt", promptOf args)],
    slog.Debug "Session details" [("sessionID", sess.ID), ("userID", "demo_user")],
    .printf "\n%s\n" [strings.Repeat "=" 80],
    .printf "Blog Pipeline\n" [],
    .printf "%s\n" [strings.Repeat "=" 80],
    .printf "> %s\n\n" [promptOf args],
    .run "demo_user" sess.ID (promptOf args) genai.RoleUser ]

/-- The effects of the reporting step of `main` (the `if cfg.AgentLogger` statement). -/
def reportTrace (w : cmd.World) (args : config.CommandLine) (sess : session.Session) :
    List Effect :=
  if (config.ParseFlags args).AgentLogger then
    [slog.Info "Agent logger enabled, retrieving session outputs" []] ++
      (logger.NewAgentLogger w.Get "adk_starter_kit" "demo_user"
        (logger.New ((config.ParseFlags args).GetLogLevel w.caseTable))).LogBlogOutputs sess.ID
  else
    [slog.Info "Agent logger disabled, skipping session output logging" []]

/-- A trace made of `Printf` and logger calls only. -/
def printsAndLogs (t : List Effect) : Prop :=
  ∀ e ∈ t, (∃ format args, e = .printf format args) ∨ (∃ level msg attrs, e = .log level msg attrs)

/-! ### Concrete inputs -/

/-- Constructors that accept every configuration. -/
def noReject : blog.Constructors :=
  { llmReject := fun _ => none, seqReject := fun _ => none }

/-- The pipeline that `Build` returns for the model named `gemini-2.5-flash-lite` when no
constructor rejects. -/
def demoAgent : agent.Agent :=
  match blog.Build noReject { Name := "gemini-2.5-flash-lite" } with
  | .ok a => a
  | .error _ => .sequential "" []

/-- A world in which initialisation succeeds, with the given event stream and the given answer
of the session service after the run. -/
def demoWorld (stream : List (Option session.Event × Option Error))
    (get : Except Error session.State) : cmd.World :=
  { caseTable := id
    getenv := fun name => if name = "GOOGLE_API_KEY" then "secret" else ""
    NewModel := fun modelName _ => .ok { Name := modelName }
    constructors := noReject
    runnerReject := fun _ => none
    Create := fun _ => .ok { ID := "session-1" }
    Run := fun _ _ _ _ _ => stream
    Get := fun _ => get }

/-- A world without API key in the environment. -/
def noKeyWorld : cmd.World :=
  { demoWorld [] (.error "session not found") with getenv := fun _ => "" }

/-- A world in which the agent constructor rejects every LLM step. -/
def rejectingWorld : cmd.World :=
  { demoWorld [] (.error "session not found") with
    constructors := { llmReject := fun _ => some "invalid agent", seqReject := fun _ => none } }

/-- A command line without flags. -/
def noFlags : config.CommandLine :=
  { logLevel := none, agentLogger := none, prompt := none }

/-- The event of the Outline step, with one text part. -/
def outlineEvent : session.Event :=
  { Author := "OutlineAgent", Content := some { Parts := [some { Text := "An outline" }] } }

/-- An event of the Writer step whose content has one part, a nil pointer
(`Parts: []*genai.Part{nil}`). -/
def nilPartEvent : session.Event :=
  { Author := "WriterAgent", Content := some { Parts := [none] } }

/-- A stream on which the Outline step succeeds and the model call of the Writer step fails. -/
def writerFails : List (Option session.Event × Option Error) :=
  [ (some outlineEvent, none),
    (none, some "model call failed") ]

/-- A stream of an all-success run: one event for each of the three steps. -/
def allSucceed : List (Option session.Event × Option Error) :=
  [ (some outlineEvent, none),
    (some { Author := "WriterAgent", Content := some { Parts := [some { Text := "A draft" }] } },
      none),
    (some { Author := "EditorAgent", Content := some { Parts := [some { Text := "A post" }] } },
      none) ]

/-- A stream without errors, one event for each of the three steps, on which the Writer's event
carries a nil part. -/
def nilPartStream : List (Option session.Event × Option Error) :=
  [ (some outlineEvent, none),
    (some nilPartEvent, none),
    (some { Author := "EditorAgent", Content := some { Parts := [some { Text := "A post" }] } },
      none) ]

/-- The state after the Outline step alone has written its key. -/
def outlineOnly : session.State :=
  session.mapState [("blog_outline", "An outline")]

/-! ## Properties of `config` -/

theorem toNat_ofNat_ascii (n : Nat) (h : n < 128) : (Char.ofNat n).toNat = n := by
  have hv : n.isValidChar := by unfold Nat.isValidChar; omega
  unfold Char.ofNat
  rw [dif_pos hv]
  simp [Char.ofNatAux, Char.toNat, UInt32.toNat]

theorem unicode_ToLower_upperASCII (caseTable : Char → Char) (r : Char) :
    unicode.ToLower caseTable (upperASCII r) = unicode.ToLower caseTable r := by
  have ha : 'a'.toNat = 97 := by decide
  have hz : 'z'.toNat = 122 := by decide
  have hA : 'A'.toNat = 65 := by decide
  have hZ : 'Z'.toNat = 90 := by decide
  unfold upperASCII
  split
  · rename_i h
    rw [ha, hz] at h
    obtain ⟨h1, h2⟩ := h
    have hv : (Char.ofNat (r.toNat - ('a'.toNat - 'A'.toNat))).toNat = r.toNat - 32 := by
      rw [ha, hA]
      exact toNat_ofNat_ascii _ (by omega)
    unfold unicode.ToLower
    rw [hv, ha, hA, hZ]
    have e1 : r.toNat - 32 ≤ 0x7F := by omega
    have e2 : 65 ≤ r.toNat - 32 ∧ r.toNat - 32 ≤ 90 := by omega
    have e3 : r.toNat ≤ 0x7F := by omega
    have e4 : ¬ (65 ≤ r.toNat ∧ r.toNat ≤ 90) := by omega
    rw [if_pos e1, if_pos e2, if_pos e3, if_neg e4]
    have e5 : r.toNat - 32 + (97 - 65) = r.toNat := by omega
    rw [e5]
    exact Char.ofNat_toNat r
  · rfl

theorem strings_ToLower_upperASCIIString (caseTable : Char → Char) (s : String) :
    strings.ToLower caseTable (upperASCIIString s) = strings.ToLower caseTable s := by
  unfold strings.ToLower upperASCIIString
  congr 1
  simp only [List.map_map]
  apply List.map_congr_left
  intro r _
  exact unicode_ToLower_upperASCII caseTable r

/-- C7. For every configuration (and every Unicode case table behind `strings.ToLower`),
`GetLogLevel` returns `slog.LevelDebug` when the lower-cased `LogLevel` is `debug`,
`slog.LevelError` when it is `error`, and `slog.LevelInfo` in every other case; two
configurations whose level strings have the same lower-casing get the same level, in particular
a level string and its ASCII upper-case variant; `info`, the empty string and the default of the
`--log-level` flag map to `slog.LevelInfo`. -/
theorem GetLogLevel_spec (caseTable : Char → Char) (c : config.Config) :
    c.GetLogLevel caseTable =
        (if strings.ToLower caseTable c.LogLevel = "debug" then slog.LevelDebug
         else if strings.ToLower caseTable c.LogLevel = "error" then slog.LevelError
         else slog.LevelInfo) ∧
      (∀ c2 : config.Config,
        strings.ToLower caseTable c2.LogLevel = strings.ToLower caseTable c.LogLevel →
          c2.GetLogLevel caseTable = c.GetLogLevel caseTable) ∧
      config.Config.GetLogLevel caseTable { c with LogLevel := upperASCIIString c.LogLevel } =
        c.GetLogLevel caseTable ∧
      config.Config.GetLogLevel caseTable { c with LogLevel := "info" } = slog.LevelInfo ∧
      config.Config.GetLogLevel caseTable { c with LogLevel := "" } = slog.LevelInfo ∧
      ∀ args : config.CommandLine, args.logLevel = none →
        (config.ParseFlags args).GetLogLevel caseTable = slog.LevelInfo := by
  have hinfo : strings.ToLower caseTable "info" = "info" := rfl
  have hempty : strings.ToLower caseTable "" = "" := rfl
  refine ⟨?_, ?_, ?_, ?_, ?_, ?_⟩
  · unfold config.Config.GetLogLevel
    simp only
    split_ifs with h1 h2 h3
    · rfl
    · rw [h2] at h3
      exact absurd h3 (by decide)
    · rfl
    · rfl
    · rfl
  · intro c2 h
    unfold config.Config.GetLogLevel
    simp only [h]
  · unfold config.Config.GetLogLevel
    simp only [strings_ToLower_upperASCIIString]
  · unfold config.Config.GetLogLevel
    simp only [hinfo]
    decide
  · unfold config.Config.GetLogLevel
    simp only [hempty]
    decide
  · intro args h
    unfold config.Config.GetLogLevel config.ParseFlags
    simp only [h, Option.getD_none, hinfo]
    decide

/-- C7, at concrete inputs: `DEBUG` and `debug` give the debug level, `Error` the error level,
`warn` (not recognised) the info level. -/
theorem GetLogLevel_spec_witness :
    config.Config.GetLogLevel id { LogLevel := "DEBUG", AgentLogger := true, Prompt := "" } =
        slog.LevelDebug ∧
      config.Config.GetLogLevel id { LogLevel := "debug", AgentLogger := true, Prompt := "" } =
        slog.LevelDebug ∧
      config.Config.GetLogLevel id { LogLevel := "Error", AgentLogger := true, Prompt := "" } =
        slog.LevelError ∧
      config.Config.GetLogLevel id { LogLevel := "warn", AgentLogger := true, Prompt := "" } =
        slog.LevelInfo :=
  ⟨((GetLogLevel_spec id { LogLevel := "DEBUG", AgentLogger := true, Prompt := "" }).1).trans
      (by decide),
    ((GetLogLevel_spec id { LogLevel := "DEBUG", AgentLogger := true, Prompt := "" }).2.1
      { LogLevel := "debug", AgentLogger := true, Prompt := "" } (by decide)).trans (by decide),
    by decide, by decide⟩

/-! ## Properties of `blog.Build` -/

theorem llmagent_New_ok {reject : llmagent.Config → Option Error} {cfg : llmagent.Config}
    {a : agent.Agent} (h : llmagent.New reject cfg = .ok a) : a = .llm cfg := by
  unfold llmagent.New at h
  split at h
  · cases h
  · cases h
    rfl

theorem sequentialagent_New_ok {reject : sequentialagent.Config → Option Error}
    {cfg : sequentialagent.Config} {a : agent.Agent}
    (h : sequentialagent.New reject cfg = .ok a) :
    a = .sequential cfg.AgentConfig.Name cfg.AgentConfig.SubAgents := by
  unfold sequentialagent.New at h
  split at h
  · cases h
  · cases h
    rfl

/-- A successful `Build` returns the same pipeline whatever the constructors' validation is. -/
theorem Build_ok_noReject (lib : blog.Constructors) (mdl : model.LLM) (a : agent.Agent)
    (h : blog.Build lib mdl = .ok a) : blog.Build noReject mdl = .ok a := by
  unfold blog.Build at h
  split at h
  · cases h
  · rename_i o ho
    split at h
    · cases h
    · rename_i wr hw
      split at h
      · cases h
      · rename_i ed he
        split at h
        · cases h
        · rename_i sq hs
          cases h
          rw [llmagent_New_ok ho, llmagent_New_ok hw, llmagent_New_ok he] at hs
          rw [sequentialagent_New_ok hs]
          rfl

/-- When no constructor rejects, `Build` succeeds. -/
theorem Build_noReject_isOk (mdl : model.LLM) : ∃ a, blog.Build noReject mdl = .ok a :=
  ⟨_, rfl⟩

/-- The pipeline of a successful `Build`, written out. -/
theorem Build_ok_eq (lib : blog.Constructors) (mdl : model.LLM) (a : agent.Agent)
    (h : blog.Build lib mdl = .ok a) :
    ∃ outline writer editor : llmagent.Config,
      a = .sequential "BlogPipeline" [.llm outline, .llm writer, .llm editor] ∧
      llmagent.New noReject.llmReject outline = .ok (.llm outline) ∧
      (outline.Name, outline.OutputKey) = ("OutlineAgent", blog.OutputKeyBlogOutline) ∧
      (writer.Name, writer.OutputKey) = ("WriterAgent", blog.OutputKeyBlogDraft) ∧
      (editor.Name, editor.OutputKey) = ("EditorAgent", blog.OutputKeyFinalBlog) ∧
      outline.Model = mdl ∧ writer.Model = mdl ∧ editor.Model = mdl := by
  have h2 := Build_ok_noReject lib mdl a h
  simp only [blog.Build, llmagent.New, sequentialagent.New, noReject] at h2
  cases h2
  exact ⟨_, _, _, rfl, rfl, rfl, rfl, rfl, rfl, rfl, rfl⟩

/-- C5. Whenever all constructors succeed, so that `Build` returns a pipeline, that pipeline is
a sequential composite named `BlogPipeline`; its step list is `OutlineAgent`, `WriterAgent`,
`EditorAgent` in that order (three steps, not empty); each step has exactly one output key; the
output keys of the steps are pairwise distinct (they are `blog_outline`, `blog_draft`,
`final_blog`); and every step runs on the model given to `Build`. -/
theorem Build_pipeline_shape (lib : blog.Constructors) (mdl : model.LLM) (a : agent.Agent)
    (h : blog.Build lib mdl = .ok a) :
    a.isSequential = true ∧ a.Name = "BlogPipeline" ∧
      a.SubAgents.map agent.Agent.Name = ["OutlineAgent", "WriterAgent", "EditorAgent"] ∧
      a.SubAgents ≠ [] ∧ a.SubAgents.length = 3 ∧
      (∀ s ∈ a.SubAgents, s.outputKeys.length = 1 ∧ s.isSequential = false) ∧
      (a.SubAgents.map agent.Agent.OutputKey).Nodup ∧
      a.SubAgents.map agent.Agent.OutputKey =
        [blog.OutputKeyBlogOutline, blog.OutputKeyBlogDraft, blog.OutputKeyFinalBlog] ∧
      (a.SubAgents.flatMap agent.Agent.outputKeys).Nodup := by
  have h2 := Build_ok_noReject lib mdl a h
  simp only [blog.Build, llmagent.New, sequentialagent.New, noReject] at h2
  cases h2
  have hkeys : (["blog_outline", "blog_draft", "final_blog"] : List String).Nodup := by decide
  refine ⟨rfl, rfl, rfl, by simp [agent.Agent.SubAgents], rfl, ?_, hkeys, rfl, hkeys⟩
  intro s hs
  simp only [agent.Agent.SubAgents, List.mem_cons, List.mem_singleton, List.not_mem_nil,
    or_false] at hs
  rcases hs with rfl | rfl | rfl <;> exact ⟨rfl, rfl⟩

/-- C5 at a concrete input: with constructors that reject nothing, `Build` succeeds on the model
`gemini-2.5-flash-lite` and returns the pipeline described. -/
theorem Build_pipeline_shape_witness :
    blog.Build noReject { Name := "gemini-2.5-flash-lite" } = .ok demoAgent ∧
      demoAgent.Name = "BlogPipeline" ∧
      demoAgent.SubAgents.map agent.Agent.Name = ["OutlineAgent", "WriterAgent", "EditorAgent"] ∧
      (demoAgent.SubAgents.map agent.Agent.OutputKey).Nodup :=
  have h := Build_pipeline_shape noReject { Name := "gemini-2.5-flash-lite" } demoAgent rfl
  ⟨rfl, h.2.1, h.2.2.1, h.2.2.2.2.2.2.1⟩

set_option maxRecDepth 100000 in
/-- Which declared output key occurs in which step's instruction text: row `i` is the step at
position `i`, column `j` the output key of the step at position `j`. -/
theorem Build_instruction_keys (lib : blog.Constructors) (mdl : model.LLM) (a : agent.Agent)
    (h : blog.Build lib mdl = .ok a) :
    a.SubAgents.map (fun s => a.SubAgents.map (fun p => strings.Contains s.Instruction p.OutputKey))
      = [[false, false, false], [true, false, false], [false, true, false]] := by
  have h2 := Build_ok_noReject lib mdl a h
  simp only [blog.Build, llmagent.New, sequentialagent.New, noReject] at h2
  cases h2
  simp only [agent.Agent.SubAgents, List.map, agent.Agent.Instruction, agent.Agent.OutputKey]
  decide

/-- C6. In the pipeline that `Build` returns, no step is placed before the step producing a
state key it requires: for every step `s` at position `i` and every declared output key of the
pipeline that occurs in the instruction text of `s`, the key is the output key of a step at a
position strictly smaller than `i`.  The occurrences are exactly: the Writer's instruction names
the Outline's key, the Editor's instruction names the Writer's key, the Outline's instruction
names no key. -/
theorem Build_dependency_order (lib : blog.Constructors) (mdl : model.LLM) (a : agent.Agent)
    (h : blog.Build lib mdl = .ok a) :
    (∀ (i : Nat) (s : agent.Agent) (key : String),
        a.SubAgents.get? i = some s →
        key ∈ a.SubAgents.map agent.Agent.OutputKey →
        strings.Contains s.Instruction key = true →
        ∃ j p, j < i ∧ a.SubAgents.get? j = some p ∧ p.OutputKey = key) ∧
      a.SubAgents.map
          (fun s => a.SubAgents.map (fun p => strings.Contains s.Instruction p.OutputKey)) =
        [[false, false, false], [true, false, false], [false, true, false]] := by
  have hM := Build_instruction_keys lib mdl a h
  refine ⟨?_, hM⟩
  obtain ⟨o, wr, ed, rfl, -, -, -, -, -, -, -⟩ := Build_ok_eq lib mdl a h
  simp only [agent.Agent.SubAgents, List.map, List.cons.injEq, and_true] at hM
  obtain ⟨⟨h00, h01, h02⟩, ⟨h10, h11, h12⟩, ⟨h20, h21, h22⟩⟩ := hM
  intro i s key hs hkey hocc
  simp only [agent.Agent.SubAgents, List.map, List.mem_cons, List.mem_singleton,
    List.not_mem_nil, or_false] at hkey hs
  match i, hs with
  | 0, hs =>
    simp only [List.get?_cons_zero, Option.some.injEq] at hs
    subst hs
    rcases hkey with rfl | rfl | rfl
    · rw [h00] at hocc; cases hocc
    · rw [h01] at hocc; cases hocc
    · rw [h02] at hocc; cases hocc
  | 1, hs =>
    simp only [List.get?_cons_succ, List.get?_cons_zero, Option.some.injEq] at hs
    subst hs
    rcases hkey with rfl | rfl | rfl
    · exact ⟨0, _, by omega, rfl, rfl⟩
    · rw [h11] at hocc; cases hocc
    · rw [h12] at hocc; cases hocc
  | 2, hs =>
    simp only [List.get?_cons_succ, List.get?_cons_zero, Option.some.injEq] at hs
    subst hs
    rcases hkey with rfl | rfl | rfl
    · rw [h20] at hocc; cases hocc
    · exact ⟨1, _, by omega, rfl, rfl⟩
    · rw [h22] at hocc; cases hocc
  | n + 3, hs =>
    simp only [List.get?_cons_succ, List.get?_nil] at hs
    cases hs

set_option maxRecDepth 100000 in
/-- C6 at a concrete input: in the pipeline built with constructors that reject nothing, the
Writer (position 1) names `blog_outline` in its instruction, and that key is written by the step
at position 0. -/
theorem Build_dependency_order_witness :
    blog.Build noReject { Name := "gemini-2.5-flash-lite" } = .ok demoAgent ∧
      ∃ j p, j < 1 ∧ demoAgent.SubAgents.get? j = some p ∧ p.OutputKey = "blog_outline" :=
  ⟨rfl,
    (Build_dependency_order noReject { Name := "gemini-2.5-flash-lite" } demoAgent rfl).1 1
      (.llm
        { Name := "WriterAgent"
          Model := { Name := "gemini-2.5-flash-lite" }
          Description := "Writes blog posts from outlines"
          Instruction := "Following the outline from the session state under 'blog_outline', write a short blog post (200-300 words) with an engaging and informative tone."
          OutputKey := blog.OutputKeyBlogDraft })
      "blog_outline" rfl (by decide) (by decide)⟩

/-! ## Properties of the event loop -/

theorem loopBody_nil : cmd.loopBody none = ([slog.Debug "Received nil event" []], none) := rfl

/-- The loop body on a non-nil event, in closed form: the author line when the author is not
empty, then the response block when the first part exists, is allocated and has a non-empty
text; the body panics exactly when the first part exists and is a nil pointer. -/
theorem loopBody_some (ev : session.Event) :
    cmd.loopBody (some ev) =
      ((if ev.Author ≠ "" then
          [Effect.printf "Agent: %s\n" [ev.Author],
            slog.Debug "Event from agent" [("author", ev.Author)]]
        else []) ++
       (match ev.Content with
        | some content =>
          match content.Parts with
          | some part :: _ =>
            if part.Text ≠ "" then
              [Effect.printf "Response:\n%s\n" [part.Text],
                slog.Debug "Response content length"
                  [("length", toString part.Text.utf8ByteSize)]]
            else []
          | _ => []
        | none => []),
       if firstPartIsNil (some ev) then some .nilDereference else none) := by
  obtain ⟨author, content⟩ := ev
  cases content with
  | none =>
    simp [cmd.loopBody, cmd.eventAuthor, cmd.responseCondition, cmd.contentNotNil,
      cmd.partsNotEmpty, cmd.firstPartTextNotEmpty, cmd.firstPartText, golang.deref,
      golang.index, golang.andAlso, firstPartIsNil]
  | some c =>
    obtain ⟨parts⟩ := c
    cases parts with
    | nil =>
      simp [cmd.loopBody, cmd.eventAuthor, cmd.responseCondition, cmd.contentNotNil,
        cmd.partsNotEmpty, cmd.firstPartTextNotEmpty, cmd.firstPartText, golang.deref,
        golang.index, golang.andAlso, firstPartIsNil]
    | cons pp rest =>
      cases pp with
      | none =>
        simp [cmd.loopBody, cmd.eventAuthor, cmd.responseCondition, cmd.contentNotNil,
          cmd.partsNotEmpty, cmd.firstPartTextNotEmpty, cmd.firstPartText, golang.deref,
          golang.index, golang.andAlso, firstPartIsNil]
      | some p =>
        by_cases hp : p.Text = ""
        · simp [cmd.loopBody, cmd.eventAuthor, cmd.responseCondition, cmd.contentNotNil,
            cmd.partsNotEmpty, cmd.firstPartTextNotEmpty, cmd.firstPartText, golang.deref,
            golang.index, golang.andAlso, firstPartIsNil, hp]
        · simp [cmd.loopBody, cmd.eventAuthor, cmd.responseCondition, cmd.contentNotNil,
            cmd.partsNotEmpty, cmd.firstPartTextNotEmpty, cmd.firstPartText, golang.deref,
            golang.index, golang.andAlso, firstPartIsNil, hp]

/-- The loop body panics exactly on an event whose first part is a nil pointer. -/
theorem loopBody_panic (event : Option session.Event) :
    (cmd.loopBody event).2 = if firstPartIsNil event then some .nilDereference else none := by
  cases event with
  | none => rfl
  | some ev => rw [loopBody_some]

theorem firstPartText_ok_iff (event : Option session.Event) (text : String) :
    cmd.firstPartText event = .ok text ↔
      ∃ ev content part rest, event = some ev ∧ ev.Content = some content ∧
        content.Parts = some part :: rest ∧ part.Text = text := by
  cases event with
  | none => simp [cmd.firstPartText, golang.deref]
  | some ev =>
    obtain ⟨author, content⟩ := ev
    cases content with
    | none => simp [cmd.firstPartText, golang.deref]
    | some c =>
      obtain ⟨parts⟩ := c
      cases parts with
      | nil => simp [cmd.firstPartText, golang.deref, golang.index]
      | cons pp rest =>
        cases pp with
        | none => simp [cmd.firstPartText, golang.deref, golang.index]
        | some p => simp [cmd.firstPartText, golang.deref, golang.index]

theorem response_mem_loopBody (event : Option session.Event) (text : String) :
    Effect.printf "Response:\n%s\n" [text] ∈ (cmd.loopBody event).1 ↔
      ∃ ev content part rest, event = some ev ∧ ev.Content = some content ∧
        content.Parts = some part :: rest ∧ part.Text = text ∧ text ≠ "" := by
  have hfmt : ¬ ("Response:\n%s\n" = "Agent: %s\n") := by decide
  cases event with
  | none => simp [loopBody_nil, slog.Debug]
  | some ev =>
    rw [loopBody_some]
    obtain ⟨author, content⟩ := ev
    cases content with
    | none => by_cases ha : author = "" <;> simp [ha, slog.Debug, hfmt]
    | some c =>
      obtain ⟨parts⟩ := c
      cases parts with
      | nil => by_cases ha : author = "" <;> simp [ha, slog.Debug, hfmt]
      | cons pp rest =>
        cases pp with
        | none => by_cases ha : author = "" <;> simp [ha, slog.Debug, hfmt]
        | some p =>
          by_cases hp : p.Text = "" <;> by_cases ha : author = "" <;>
            simp [ha, hp, slog.Debug, hfmt]
          · intro h
            exact h.symm
          · intro h
            exact h.symm
          · constructor
            · intro h
              exact ⟨h.symm, by rw [h]; exact hp⟩
            · intro h
              exact h.1.symm
          · constructor
            · intro h
              exact ⟨h.symm, by rw [h]; exact hp⟩
            · intro h
              exact h.1.symm

theorem agentLines_loopBody (event : Option session.Event) :
    agentLines (cmd.loopBody event).1 = authors [(event, none)] := by
  have hfmt : ¬ ("Response:\n%s\n" = "Agent: %s\n") := by decide
  cases event with
  | none => simp [loopBody_nil, slog.Debug, agentLines, authors]
  | some ev =>
    rw [loopBody_some]
    obtain ⟨author, content⟩ := ev
    cases content with
    | none => by_cases ha : author = "" <;> simp [ha, slog.Debug, hfmt, agentLines, authors]
    | some c =>
      obtain ⟨parts⟩ := c
      cases parts with
      | nil => by_cases ha : author = "" <;> simp [ha, slog.Debug, hfmt, agentLines, authors]
      | cons pp rest =>
        cases pp with
        | none => by_cases ha : author = "" <;> simp [ha, slog.Debug, hfmt, agentLines, authors]
        | some p =>
          by_cases hp : p.Text = "" <;> by_cases ha : author = "" <;>
            simp [ha, hp, slog.Debug, hfmt, agentLines, authors]

/-- Every effect of the loop body is a `Printf` or a debug-level log call. -/
theorem loopBody_effects (event : Option session.Event) :
    ∀ e ∈ (cmd.loopBody event).1,
      (∃ format args, e = .printf format args) ∨ (∃ msg attrs, e = slog.Debug msg attrs) := by
  cases event with
  | none =>
    intro e he
    simp only [loopBody_nil, List.mem_singleton] at he
    exact Or.inr ⟨_, _, he⟩
  | some ev =>
    rw [loopBody_some]
    intro e he
    simp only [List.mem_append] at he
    rcases he with he | he
    · split at he
      · simp only [List.mem_cons, List.mem_singleton, List.not_mem_nil, or_false] at he
        rcases he with rfl | rfl
        · exact Or.inl ⟨_, _, rfl⟩
        · exact Or.inr ⟨_, _, rfl⟩
      · cases he
    · split at he
      · split at he
        · split at he
          · simp only [List.mem_cons, List.mem_singleton, List.not_mem_nil, or_false] at he
            rcases he with rfl | rfl
            · exact Or.inl ⟨_, _, rfl⟩
            · exact Or.inr ⟨_, _, rfl⟩
          · cases he
        · cases he
      · cases he

/-- On every event whose first part is not a nil pointer (a nil event, an event with nil
`Content` and an event with an empty `Parts` list included) the loop body runs without a panic,
and it prints a response exactly when the event is non-nil, its `Content` is non-nil, `Parts` is
not empty and the text of the first part is not empty. -/
theorem loopBody_guarded (event : Option session.Event) (h : firstPartIsNil event = false) :
    (cmd.loopBody event).2 = none ∧
      ∀ text, Effect.printf "Response:\n%s\n" [text] ∈ (cmd.loopBody event).1 ↔
        ∃ ev content part rest, event = some ev ∧ ev.Content = some content ∧
          content.Parts = some part :: rest ∧ part.Text = text ∧ text ≠ "" := by
  refine ⟨?_, response_mem_loopBody event⟩
  rw [loopBody_panic, h]
  rfl

/-- C10, the code at the failing input.  The Writer's event is delivered without error, is
non-nil, has a non-nil `Content` and a `Parts` list of length one whose element is a nil
pointer: the three guards of the condition at `main.go:119` pass, the read of
`event.Content.Parts[0].Text` goes through the nil pointer, and the loop body panics with a nil
dereference after printing the `Agent:` line.  The body panics on exactly the events of this
kind. -/
theorem loopBody_nil_part_panics :
    cmd.contentNotNil (some nilPartEvent) = .ok true ∧
      cmd.partsNotEmpty (some nilPartEvent) = .ok true ∧
      cmd.firstPartText (some nilPartEvent) = .error .nilDereference ∧
      cmd.responseCondition (some nilPartEvent) = .error .nilDereference ∧
      cmd.loopBody (some nilPartEvent) =
        ([.printf "Agent: %s\n" ["WriterAgent"],
          slog.Debug "Event from agent" [("author", "WriterAgent")]],
         some .nilDereference) ∧
      ∀ event, (cmd.loopBody event).2 ≠ none ↔ firstPartIsNil event = true := by
  refine ⟨rfl, rfl, rfl, rfl, by decide, ?_⟩
  intro event
  rw [loopBody_panic]
  cases firstPartIsNil event <;> simp

theorem errorLogs_append (t1 t2 : List Effect) :
    errorLogs (t1 ++ t2) = errorLogs t1 ++ errorLogs t2 := by
  simp [errorLogs]

theorem agentLines_append (t1 t2 : List Effect) :
    agentLines (t1 ++ t2) = agentLines t1 ++ agentLines t2 := by
  simp [agentLines]

theorem errorLogs_loopBody (event : Option session.Event) :
    errorLogs (cmd.loopBody event).1 = [] := by
  unfold errorLogs
  rw [List.filter_eq_nil_iff]
  intro e he
  rcases loopBody_effects event e he with ⟨f, args, rfl⟩ | ⟨msg, attrs, rfl⟩
  · simp [Effect.isErrorLog]
  · simp [Effect.isErrorLog, slog.Debug, slog.LevelDebug, slog.LevelError]

/-- The loop step on a pair without error, by the outcome of the body. -/
theorem processEvents_cons (event : Option session.Event)
    (rest : List (Option session.Event × Option Error)) :
    cmd.processEvents ((event, none) :: rest) =
      match (cmd.loopBody event).2 with
      | some p => ((cmd.loopBody event).1, .panicked p)
      | none => ((cmd.loopBody event).1 ++ (cmd.processEvents rest).1, (cmd.processEvents rest).2) := by
  rw [cmd.processEvents]
  split
  · rename_i t q heq
    rw [heq]
  · rename_i t heq
    rw [heq]

/-- When the loop ends with the stream, no pair carried an error, no body panicked, and the
trace is that of the bodies, in stream order. -/
theorem processEvents_completed (stream : List (Option session.Event × Option Error))
    (h : (cmd.processEvents stream).2 = .completed) :
    noError stream ∧ (∀ p ∈ stream, firstPartIsNil p.1 = false) ∧
      (cmd.processEvents stream).1 = stream.flatMap (fun p => (cmd.loopBody p.1).1) := by
  induction stream with
  | nil =>
    refine ⟨?_, ?_, rfl⟩
    · intro p hp
      cases hp
    · intro p hp
      cases hp
  | cons p rest ih =>
    obtain ⟨event, err⟩ := p
    cases err with
    | some err =>
      rw [cmd.processEvents] at h
      cases h
    | none =>
      rw [processEvents_cons] at h ⊢
      have hp := loopBody_panic event
      cases hb : (cmd.loopBody event).2 with
      | some q =>
        rw [hb] at h
        cases h
      | none =>
        rw [hb] at h hp
        simp only at h ⊢
        have hn : firstPartIsNil event = false := by
          cases hf : firstPartIsNil event with
          | false => rfl
          | true =>
            rw [hf] at hp
            cases hp
        obtain ⟨h1, h2, h3⟩ := ih h
        refine ⟨?_, ?_, ?_⟩
        · intro q hq
          rcases List.mem_cons.mp hq with rfl | hq
          · rfl
          · exact h1 q hq
        · intro q hq
          rcases List.mem_cons.mp hq with rfl | hq
          · exact hn
          · exact h2 q hq
        · simp only [List.flatMap_cons]
          rw [h3]

/-- The loop stops at the first pair that carries an error, once it has got through the pairs
before it: their effects are followed by the log of the error, and the pairs after it are not
looked at. -/
theorem processEvents_first_error (pre post : List (Option session.Event × Option Error))
    (event : Option session.Event) (err : Error)
    (h : (cmd.processEvents pre).2 = .completed) :
    cmd.processEvents (pre ++ (event, some err) :: post) =
      ((cmd.processEvents pre).1 ++ [slog.Error "Error during agent execution" [("error", err)]],
        .returned) := by
  induction pre with
  | nil => rfl
  | cons p rest ih =>
    obtain ⟨ev, e⟩ := p
    cases e with
    | some e =>
      rw [cmd.processEvents] at h
      cases h
    | none =>
      rw [List.cons_append, processEvents_cons]
      rw [processEvents_cons] at h ⊢
      cases hb : (cmd.loopBody ev).2 with
      | some q =>
        rw [hb] at h
        cases h
      | none =>
        rw [hb] at h
        simp only at h ⊢
        rw [ih h]
        simp only [List.append_assoc]

theorem errorLogs_completed (stream : List (Option session.Event × Option Error))
    (h : (cmd.processEvents stream).2 = .completed) :
    errorLogs (cmd.processEvents stream).1 = [] := by
  rw [(processEvents_completed stream h).2.2]
  clear h
  induction stream with
  | nil => rfl
  | cons p rest ih =>
    simp only [List.flatMap_cons, errorLogs_append, errorLogs_loopBody, List.nil_append] at ih ⊢
    exact ih

theorem agentLines_flatMap (stream : List (Option session.Event × Option Error))
    (h : noError stream) :
    agentLines (stream.flatMap (fun p => (cmd.loopBody p.1).1)) = authors stream := by
  induction stream with
  | nil => rfl
  | cons p rest ih =>
    obtain ⟨event, err⟩ := p
    have h1 : err = none := h (event, err) (List.mem_cons_self _ _)
    have h2 : noError rest := fun q hq => h q (List.mem_cons_of_mem _ hq)
    subst h1
    simp only [List.flatMap_cons, agentLines_append, agentLines_loopBody]
    rw [ih h2]
    exact (List.filterMap_append _ _ _).symm

theorem agentLines_completed (stream : List (Option session.Event × Option Error))
    (h : (cmd.processEvents stream).2 = .completed) :
    agentLines (cmd.processEvents stream).1 = authors stream := by
  obtain ⟨h1, -, h3⟩ := processEvents_completed stream h
  rw [h3]
  exact agentLines_flatMap stream h1

/-- What holds of the loop whenever it gets through the pairs `pre`: the bodies run in stream
order, the `Agent:` lines are the non-empty authors of the non-nil events, one line each, no
error is logged; and when a pair with an error follows, the trace of `pre` is followed by one
error log and the loop returns, whatever comes after. -/
theorem processEvents_order_when_completed
    (pre post : List (Option session.Event × Option Error))
    (event : Option session.Event) (err : Error)
    (h : (cmd.processEvents pre).2 = .completed) :
    (cmd.processEvents pre).1 = pre.flatMap (fun p => (cmd.loopBody p.1).1) ∧
      agentLines (cmd.processEvents pre).1 = authors pre ∧
      errorLogs (cmd.processEvents pre).1 = [] ∧
      cmd.processEvents (pre ++ (event, some err) :: post) =
        ((cmd.processEvents pre).1 ++
            [slog.Error "Error during agent execution" [("error", err)]], .returned) ∧
      errorLogs (cmd.processEvents (pre ++ (event, some err) :: post)).1 =
        [slog.Error "Error during agent execution" [("error", err)]] ∧
      printfs (cmd.processEvents (pre ++ (event, some err) :: post)).1 =
        printfs (cmd.processEvents pre).1 := by
  have hE := errorLogs_completed pre h
  have hF := processEvents_first_error pre post event err h
  refine ⟨(processEvents_completed pre h).2.2, agentLines_completed pre h, hE, hF, ?_, ?_⟩
  · rw [hF]
    simp only [errorLogs_append, hE, List.nil_append]
    rfl
  · rw [hF]
    simp [printfs, slog.Error, Effect.isPrintf]

/-- C9, the code at the failing input.  The stream delivers three events without any error, one
for each step, each with a non-empty author; the Writer's event carries a nil part.  The loop
prints the `Agent:` lines of the Outline and of the Writer and then panics in the body of the
Writer's event (the defect of `main.go:119`): the Editor's event is never processed, so three
authored events give two lines.  When a pair with an error follows such an event, the loop
never reaches it and the error is not logged. -/
theorem processEvents_nil_part_stream :
    noError nilPartStream ∧
      authors nilPartStream = ["OutlineAgent", "WriterAgent", "EditorAgent"] ∧
      cmd.processEvents nilPartStream =
        ([.printf "Agent: %s\n" ["OutlineAgent"],
          slog.Debug "Event from agent" [("author", "OutlineAgent")],
          .printf "Response:\n%s\n" ["An outline"],
          slog.Debug "Response content length" [("length", "10")],
          .printf "Agent: %s\n" ["WriterAgent"],
          slog.Debug "Event from agent" [("author", "WriterAgent")]],
         .panicked .nilDereference) ∧
      agentLines (cmd.processEvents nilPartStream).1 = ["OutlineAgent", "WriterAgent"] ∧
      (cmd.processEvents ([(some nilPartEvent, none), (none, some "model call failed")])).2 =
        .panicked .nilDereference ∧
      errorLogs
        (cmd.processEvents ([(some nilPartEvent, none), (none, some "model call failed")])).1 =
        [] := by
  refine ⟨by decide, by decide, by decide, by decide, by decide, by decide⟩


/-! ## The driver after a successful initialisation -/

/-- When initialisation succeeds and the event loop ends with the stream, `main` performs the
start effects, the loop effects, the reporting step and the completion path, and exits with
code 0. -/
theorem main_completed (w : cmd.World) (args : config.CommandLine) (a : agent.Agent)
    (s : session.Session) (hinit : InitOK w a s)
    (hloop : (cmd.processEvents (eventStream w args a s)).2 = .completed) :
    (cmd.main w args).trace =
        startTrace args s ++ (cmd.processEvents (eventStream w args a s)).1 ++
          reportTrace w args s ++ completionPath ∧
      (cmd.main w args).exitCode = 0 := by
  obtain ⟨hkey, mdl, hm, hb, hr, hc⟩ := hinit
  unfold eventStream at hloop
  unfold cmd.main
  simp only [hkey, if_false, hm, hb, hr, hc]
  split
  · rename_i tl p heq
    rw [heq] at hloop
    cases hloop
  · rename_i tl heq
    rw [heq] at hloop
    cases hloop
  · rename_i tl heq
    unfold eventStream
    rw [heq]
    simp [startTrace, reportTrace, completionPath, promptOf]

/-- When initialisation succeeds and the event loop returns from `main` (the stream delivered
an error), `main` performs the start effects and the loop effects, and exits with code 0. -/
theorem main_returned (w : cmd.World) (args : config.CommandLine) (a : agent.Agent)
    (s : session.Session) (hinit : InitOK w a s)
    (hloop : (cmd.processEvents (eventStream w args a s)).2 = .returned) :
    (cmd.main w args).trace =
        startTrace args s ++ (cmd.processEvents (eventStream w args a s)).1 ∧
      (cmd.main w args).exitCode = 0 := by
  obtain ⟨hkey, mdl, hm, hb, hr, hc⟩ := hinit
  unfold eventStream at hloop
  unfold cmd.main
  simp only [hkey, if_false, hm, hb, hr, hc]
  split
  · rename_i tl p heq
    rw [heq] at hloop
    cases hloop
  · rename_i tl heq
    unfold eventStream
    rw [heq]
    simp [startTrace, promptOf]
  · rename_i tl heq
    rw [heq] at hloop
    cases hloop

/-- When initialisation succeeds and the event loop panics, `main` has performed the start
effects and the loop effects up to the panic, and the process ends with exit code 2. -/
theorem main_panicked (w : cmd.World) (args : config.CommandLine) (a : agent.Agent)
    (s : session.Session) (p : golang.Panic) (hinit : InitOK w a s)
    (hloop : (cmd.processEvents (eventStream w args a s)).2 = .panicked p) :
    (cmd.main w args).trace =
        startTrace args s ++ (cmd.processEvents (eventStream w args a s)).1 ∧
      (cmd.main w args).exitCode = 2 := by
  obtain ⟨hkey, mdl, hm, hb, hr, hc⟩ := hinit
  unfold eventStream at hloop
  unfold cmd.main
  simp only [hkey, if_false, hm, hb, hr, hc]
  split
  · rename_i tl q heq
    unfold eventStream
    rw [heq]
    simp [startTrace, promptOf]
  · rename_i tl heq
    rw [heq] at hloop
    cases hloop
  · rename_i tl heq
    rw [heq] at hloop
    cases hloop

/-! ## Properties of the reporter -/

theorem stateReads_LogBlogOutputs (al : logger.AgentLogger) (sid : String) (st : session.State)
    (h : al.sessionService { AppName := al.appName, UserID := al.userID, SessionID := sid } =
      .ok st) :
    stateReads (al.LogBlogOutputs sid) = ["blog_outline", "blog_draft", "final_blog"] := by
  unfold logger.AgentLogger.LogBlogOutputs
  simp only [h]
  cases h1 : st.Get "blog_outline" <;> cases h2 : st.Get "blog_draft" <;>
    cases h3 : st.Get "final_blog" <;>
    simp [stateReads, slog.Info, slog.Debug, slog.Error]

theorem printfs_LogBlogOutputs (al : logger.AgentLogger) (sid : String) (st : session.State)
    (h : al.sessionService { AppName := al.appName, UserID := al.userID, SessionID := sid } =
      .ok st) :
    printfs (al.LogBlogOutputs sid) =
      [.printf "\n%s\n" [strings.Repeat "-" 80], .printf "%s\n" [strings.Repeat "-" 80]] ++
        [("blog_outline", "\n[OutlineAgent] Output:\n%v\n"),
          ("blog_draft", "\n[WriterAgent] Output:\n%v\n"),
          ("final_blog", "\n[EditorAgent] Output:\n%v\n")].filterMap
          (fun kf =>
            match st.Get kf.1 with
            | .ok value => some (Effect.printf kf.2 [value])
            | .error _ => none) := by
  unfold logger.AgentLogger.LogBlogOutputs
  simp only [h]
  cases h1 : st.Get "blog_outline" <;> cases h2 : st.Get "blog_draft" <;>
    cases h3 : st.Get "final_blog" <;>
    simp [printfs, Effect.isPrintf, slog.Info, slog.Debug, slog.Error, h1, h2, h3]

theorem errorLogs_LogBlogOutputs (al : logger.AgentLogger) (sid : String) (st : session.State)
    (h : al.sessionService { AppName := al.appName, UserID := al.userID, SessionID := sid } =
      .ok st) :
    errorLogs (al.LogBlogOutputs sid) =
      [("blog_outline", "Blog outline not found in session state"),
        ("blog_draft", "Blog draft not found in session state"),
        ("final_blog", "Final blog not found in session state")].filterMap
        (fun km =>
          match st.Get km.1 with
          | .ok _ => none
          | .error err => some (slog.Error km.2 [("error", err)])) := by
  unfold logger.AgentLogger.LogBlogOutputs
  simp only [h]
  cases h1 : st.Get "blog_outline" <;> cases h2 : st.Get "blog_draft" <;>
    cases h3 : st.Get "final_blog" <;>
    simp [errorLogs, Effect.isErrorLog, slog.Info, slog.Debug, slog.Error, slog.LevelInfo,
      slog.LevelDebug, slog.LevelError, h1, h2, h3]

theorem errorLogs_LogBlogOutputs_length (al : logger.AgentLogger) (sid : String)
    (st : session.State)
    (h : al.sessionService { AppName := al.appName, UserID := al.userID, SessionID := sid } =
      .ok st) :
    (errorLogs (al.LogBlogOutputs sid)).length =
      (["blog_outline", "blog_draft", "final_blog"].filter (isMissing st)).length := by
  rw [errorLogs_LogBlogOutputs al sid st h]
  cases h1 : st.Get "blog_outline" <;> cases h2 : st.Get "blog_draft" <;>
    cases h3 : st.Get "final_blog" <;>
    simp [isMissing, h1, h2, h3]

/-! ## Effects of the loop, seen by the observers -/

theorem printsAndLogs_append {t1 t2 : List Effect} (h1 : printsAndLogs t1)
    (h2 : printsAndLogs t2) : printsAndLogs (t1 ++ t2) := by
  intro e he
  rcases List.mem_append.mp he with he | he
  · exact h1 e he
  · exact h2 e he

theorem printsAndLogs_loopBody (event : Option session.Event) :
    printsAndLogs (cmd.loopBody event).1 := by
  intro e he
  rcases loopBody_effects event e he with ⟨f, args, rfl⟩ | ⟨msg, attrs, rfl⟩
  · exact Or.inl ⟨_, _, rfl⟩
  · exact Or.inr ⟨_, _, _, rfl⟩

theorem printsAndLogs_processEvents (stream : List (Option session.Event × Option Error)) :
    printsAndLogs (cmd.processEvents stream).1 := by
  induction stream with
  | nil =>
    intro e he
    cases he
  | cons p rest ih =>
    obtain ⟨event, err⟩ := p
    cases err with
    | some err =>
      intro e he
      simp only [cmd.processEvents, List.mem_singleton] at he
      exact Or.inr ⟨_, _, _, he⟩
    | none =>
      have hl := printsAndLogs_loopBody event
      rw [processEvents_cons]
      cases hb : (cmd.loopBody event).2 with
      | some q => exact hl
      | none => exact printsAndLogs_append hl ih

theorem stateReads_printsAndLogs {t : List Effect} (h : printsAndLogs t) : stateReads t = [] := by
  unfold stateReads
  rw [List.filterMap_eq_nil_iff]
  intro e he
  rcases h e he with ⟨f, args, rfl⟩ | ⟨l, m, a, rfl⟩ <;> rfl

theorem runPrompts_printsAndLogs {t : List Effect} (h : printsAndLogs t) : runPrompts t = [] := by
  unfold runPrompts
  rw [List.filterMap_eq_nil_iff]
  intro e he
  rcases h e he with ⟨f, args, rfl⟩ | ⟨l, m, a, rfl⟩ <;> rfl

theorem reporterInvoked_printsAndLogs {t : List Effect} (h : printsAndLogs t) :
    reporterInvoked t = false := by
  unfold reporterInvoked
  rw [List.any_eq_false]
  intro e he
  rcases h e he with ⟨f, args, rfl⟩ | ⟨l, m, a, rfl⟩ <;> simp

theorem println_not_mem_printsAndLogs {t : List Effect} (h : printsAndLogs t) (line : String) :
    Effect.println line ∉ t := by
  intro he
  rcases h _ he with ⟨f, args, h1⟩ | ⟨l, m, a, h1⟩ <;> cases h1

theorem errorLogs_startTrace (args : config.CommandLine) (s : session.Session) :
    errorLogs (startTrace args s) = [] := by
  simp [errorLogs, startTrace, Effect.isErrorLog, slog.Info, slog.Debug, slog.LevelInfo,
    slog.LevelDebug, slog.LevelError]

theorem errorLogs_completionPath : errorLogs completionPath = [] := by
  simp [errorLogs, completionPath, Effect.isErrorLog, slog.Info, slog.LevelInfo, slog.LevelError]

theorem stateReads_append (t1 t2 : List Effect) :
    stateReads (t1 ++ t2) = stateReads t1 ++ stateReads t2 := by
  simp [stateReads]

theorem runPrompts_append (t1 t2 : List Effect) :
    runPrompts (t1 ++ t2) = runPrompts t1 ++ runPrompts t2 := by
  simp [runPrompts]

theorem stateReads_startTrace (args : config.CommandLine) (s : session.Session) :
    stateReads (startTrace args s) = [] := by
  simp [stateReads, startTrace, slog.Info, slog.Debug]

theorem stateReads_completionPath : stateReads completionPath = [] := by
  simp [stateReads, completionPath, slog.Info]

theorem reportTrace_enabled (w : cmd.World) (args : config.CommandLine) (s : session.Session)
    (h : (config.ParseFlags args).AgentLogger = true) :
    reportTrace w args s =
      slog.Info "Agent logger enabled, retrieving session outputs" [] ::
        (logger.NewAgentLogger w.Get "adk_starter_kit" "demo_user"
          (logger.New ((config.ParseFlags args).GetLogLevel w.caseTable))).LogBlogOutputs s.ID := by
  unfold reportTrace
  rw [if_pos h]
  rfl


/-- C3. For every session state `st`: once the session has been retrieved successfully,
`LogBlogOutputs` reads the three keys `blog_outline`, `blog_draft`, `final_blog` in that order
whatever the outcome for earlier keys; apart from the two header rules it prints, for each key
in that order, the stored value exactly when the lookup returns no error (an empty-string value
is a value), and it logs one error for each key whose lookup fails and no other error, so that
the number of error logs is the number of missing keys; the function is total (it always
returns).  In `main`, once the reporter has been reached (initialisation has succeeded, the
event loop has ended with the stream, the agent logger is enabled) and the session has been
retrieved with state `st`, the process goes on to the completion path and ends with exit code 0,
the only errors logged being those of the missing keys. -/
theorem LogBlogOutputs_reports_every_key (st : session.State) :
    (∀ (al : logger.AgentLogger) (sid : String),
        al.sessionService { AppName := al.appName, UserID := al.userID, SessionID := sid } =
          .ok st →
        stateReads (al.LogBlogOutputs sid) = ["blog_outline", "blog_draft", "final_blog"] ∧
        printfs (al.LogBlogOutputs sid) =
          [.printf "\n%s\n" [strings.Repeat "-" 80], .printf "%s\n" [strings.Repeat "-" 80]] ++
            [("blog_outline", "\n[OutlineAgent] Output:\n%v\n"),
              ("blog_draft", "\n[WriterAgent] Output:\n%v\n"),
              ("final_blog", "\n[EditorAgent] Output:\n%v\n")].filterMap
              (fun kf =>
                match st.Get kf.1 with
                | .ok value => some (Effect.printf kf.2 [value])
                | .error _ => none) ∧
        errorLogs (al.LogBlogOutputs sid) =
          [("blog_outline", "Blog outline not found in session state"),
            ("blog_draft", "Blog draft not found in session state"),
            ("final_blog", "Final blog not found in session state")].filterMap
            (fun km =>
              match st.Get km.1 with
              | .ok _ => none
              | .error err => some (slog.Error km.2 [("error", err)])) ∧
        (errorLogs (al.LogBlogOutputs sid)).length =
          (["blog_outline", "blog_draft", "final_blog"].filter (isMissing st)).length) ∧
      (∀ (w : cmd.World) (args : config.CommandLine) (a : agent.Agent) (s : session.Session),
        InitOK w a s →
        (cmd.processEvents (eventStream w args a s)).2 = .completed →
        (config.ParseFlags args).AgentLogger = true →
        w.Get { AppName := "adk_starter_kit", UserID := "demo_user", SessionID := s.ID } =
          .ok st →
        (cmd.main w args).exitCode = 0 ∧
        completionPath <:+ (cmd.main w args).trace ∧
        stateReads (cmd.main w args).trace = ["blog_outline", "blog_draft", "final_blog"] ∧
        (errorLogs (cmd.main w args).trace).length =
          (["blog_outline", "blog_draft", "final_blog"].filter (isMissing st)).length) := by
  constructor
  · intro al sid h
    exact ⟨stateReads_LogBlogOutputs al sid st h, printfs_LogBlogOutputs al sid st h,
      errorLogs_LogBlogOutputs al sid st h, errorLogs_LogBlogOutputs_length al sid st h⟩
  · intro w args a s hinit hloop hlog hget
    obtain ⟨ht, hx⟩ := main_completed w args a s hinit hloop
    have hpl := printsAndLogs_processEvents (eventStream w args a s)
    have hal : (logger.NewAgentLogger w.Get "adk_starter_kit" "demo_user"
        (logger.New ((config.ParseFlags args).GetLogLevel w.caseTable))).sessionService
          { AppName := "adk_starter_kit", UserID := "demo_user", SessionID := s.ID } = .ok st :=
      hget
    refine ⟨hx, ⟨_, ht.symm⟩, ?_, ?_⟩
    · rw [ht, reportTrace_enabled w args s hlog]
      simp only [stateReads_append, stateReads_startTrace, stateReads_printsAndLogs hpl,
        stateReads_completionPath, List.nil_append, List.append_nil]
      rw [← stateReads_LogBlogOutputs _ s.ID st hal]
      rfl
    · rw [ht, reportTrace_enabled w args s hlog]
      simp only [errorLogs_append, errorLogs_startTrace, errorLogs_completed _ hloop,
        errorLogs_completionPath, List.nil_append, List.append_nil]
      rw [← errorLogs_LogBlogOutputs_length _ s.ID st hal]
      rfl

theorem InitOK_demoWorld (stream : List (Option session.Event × Option Error))
    (get : Except Error session.State) :
    InitOK (demoWorld stream get) demoAgent { ID := "session-1" } :=
  ⟨(by decide : "secret" ≠ ""), { Name := "gemini-2.5-flash-lite" }, rfl, rfl, rfl, rfl⟩

/-- C3 at a concrete input: the state holds `blog_outline` with the empty string as value and
lacks the two other keys.  The reporter prints the (empty) outline, logs two errors, one for
each missing key, and `main` ends with exit code 0 after the completion path. -/
theorem LogBlogOutputs_reports_every_key_witness :
    printfs ((logger.NewAgentLogger
          (fun _ => .ok (session.mapState [("blog_outline", "")])) "adk_starter_kit" "demo_user"
          (logger.New slog.LevelInfo)).LogBlogOutputs "session-1") =
        [.printf "\n%s\n" [strings.Repeat "-" 80], .printf "%s\n" [strings.Repeat "-" 80],
          .printf "\n[OutlineAgent] Output:\n%v\n" [""]] ∧
      errorLogs ((logger.NewAgentLogger
          (fun _ => .ok (session.mapState [("blog_outline", "")])) "adk_starter_kit" "demo_user"
          (logger.New slog.LevelInfo)).LogBlogOutputs "session-1") =
        [slog.Error "Blog draft not found in session state"
            [("error", session.ErrStateKeyNotExist)],
          slog.Error "Final blog not found in session state"
            [("error", session.ErrStateKeyNotExist)]] ∧
      (cmd.main (demoWorld allSucceed (.ok (session.mapState [("blog_outline", "")])))
          noFlags).exitCode = 0 ∧
      (errorLogs (cmd.main (demoWorld allSucceed (.ok (session.mapState [("blog_outline", "")])))
          noFlags).trace).length = 2 :=
  have h := LogBlogOutputs_reports_every_key (session.mapState [("blog_outline", "")])
  have h1 := h.1 (logger.NewAgentLogger
    (fun _ => .ok (session.mapState [("blog_outline", "")])) "adk_starter_kit" "demo_user"
    (logger.New slog.LevelInfo)) "session-1" rfl
  have h2 := h.2 (demoWorld allSucceed (.ok (session.mapState [("blog_outline", "")]))) noFlags
    demoAgent { ID := "session-1" } (InitOK_demoWorld _ _) (by decide) rfl rfl
  ⟨h1.2.1.trans (by decide), h1.2.2.1.trans (by decide), h2.1, h2.2.2.2.trans (by decide)⟩

/-- C4. The state keys that `LogBlogOutputs` reads, in the order it reads them, are the output
keys declared by the sub-agents of the pipeline that `Build` constructs, in declaration order
(the constants `OutputKeyBlogOutline`, `OutputKeyBlogDraft`, `OutputKeyFinalBlog`), and the
label printed with the value of each key is the name of the step that declares that key: the
value lines are, for each step in declaration order whose key is present, the block
`[<step name>] Output:` with the value stored under the step's output key. -/
theorem LogBlogOutputs_keys_match_pipeline (lib : blog.Constructors) (mdl : model.LLM)
    (a : agent.Agent) (al : logger.AgentLogger) (sid : String) (st : session.State)
    (hb : blog.Build lib mdl = .ok a)
    (hs : al.sessionService { AppName := al.appName, UserID := al.userID, SessionID := sid } =
      .ok st) :
    stateReads (al.LogBlogOutputs sid) = a.SubAgents.flatMap agent.Agent.outputKeys ∧
      a.SubAgents.flatMap agent.Agent.outputKeys =
        [blog.OutputKeyBlogOutline, blog.OutputKeyBlogDraft, blog.OutputKeyFinalBlog] ∧
      (printfs (al.LogBlogOutputs sid)).drop 2 =
        a.SubAgents.filterMap (fun step =>
          match st.Get step.OutputKey with
          | .ok value => some (Effect.printf ("\n[" ++ step.Name ++ "] Output:\n%v\n") [value])
          | .error _ => none) := by
  have h2 := Build_ok_noReject lib mdl a hb
  simp only [blog.Build, llmagent.New, sequentialagent.New, noReject] at h2
  cases h2
  rw [stateReads_LogBlogOutputs al sid st hs, printfs_LogBlogOutputs al sid st hs]
  refine ⟨rfl, rfl, ?_⟩
  have e1 : "\n[" ++ "OutlineAgent" ++ "] Output:\n%v\n" = "\n[OutlineAgent] Output:\n%v\n" := by
    decide
  have e2 : "\n[" ++ "WriterAgent" ++ "] Output:\n%v\n" = "\n[WriterAgent] Output:\n%v\n" := by
    decide
  have e3 : "\n[" ++ "EditorAgent" ++ "] Output:\n%v\n" = "\n[EditorAgent] Output:\n%v\n" := by
    decide
  simp only [agent.Agent.SubAgents, agent.Agent.OutputKey, agent.Agent.Name,
    blog.OutputKeyBlogOutline, blog.OutputKeyBlogDraft, blog.OutputKeyFinalBlog,
    List.filterMap_cons, List.filterMap_nil, e1, e2, e3]
  cases h1 : st.Get "blog_outline" <;> cases h2 : st.Get "blog_draft" <;>
    cases h3 : st.Get "final_blog" <;> simp

/-- C4 at a concrete input: for the pipeline built with constructors that reject nothing and a
state holding all three keys, the reporter reads the three declared keys and prints each value
under the name of the step that wrote it. -/
theorem LogBlogOutputs_keys_match_pipeline_witness :
    stateReads ((logger.NewAgentLogger
          (fun _ => .ok (session.mapState
            [("blog_outline", "An outline"), ("blog_draft", "A draft"), ("final_blog", "A post")]))
          "adk_starter_kit" "demo_user" (logger.New slog.LevelInfo)).LogBlogOutputs "session-1") =
        ["blog_outline", "blog_draft", "final_blog"] ∧
      (printfs ((logger.NewAgentLogger
          (fun _ => .ok (session.mapState
            [("blog_outline", "An outline"), ("blog_draft", "A draft"), ("final_blog", "A post")]))
          "adk_starter_kit" "demo_user" (logger.New slog.LevelInfo)).LogBlogOutputs
            "session-1")).drop 2 =
        [.printf "\n[OutlineAgent] Output:\n%v\n" ["An outline"],
          .printf "\n[WriterAgent] Output:\n%v\n" ["A draft"],
          .printf "\n[EditorAgent] Output:\n%v\n" ["A post"]] :=
  have h := LogBlogOutputs_keys_match_pipeline noReject { Name := "gemini-2.5-flash-lite" }
    demoAgent
    (logger.NewAgentLogger
      (fun _ => .ok (session.mapState
        [("blog_outline", "An outline"), ("blog_draft", "A draft"), ("final_blog", "A post")]))
      "adk_starter_kit" "demo_user" (logger.New slog.LevelInfo))
    "session-1"
    (session.mapState
      [("blog_outline", "An outline"), ("blog_draft", "A draft"), ("final_blog", "A post")])
    rfl rfl
  ⟨h.1.trans (by decide), h.2.2.trans (by decide)⟩


/-! ## Properties of `main` -/

theorem runPrompts_startTrace (args : config.CommandLine) (s : session.Session) :
    runPrompts (startTrace args s) = [promptOf args] := by
  simp [runPrompts, startTrace, slog.Info, slog.Debug]

theorem runPrompts_LogBlogOutputs (al : logger.AgentLogger) (sid : String) :
    runPrompts (al.LogBlogOutputs sid) = [] := by
  unfold logger.AgentLogger.LogBlogOutputs
  cases h : al.sessionService { AppName := al.appName, UserID := al.userID, SessionID := sid } with
  | error err => simp [runPrompts, slog.Info, slog.Debug, slog.Error]
  | ok st =>
    simp only []
    cases h1 : st.Get "blog_outline" <;> cases h2 : st.Get "blog_draft" <;>
      cases h3 : st.Get "final_blog" <;>
      simp [runPrompts, slog.Info, slog.Debug, slog.Error]

theorem runPrompts_reportTrace (w : cmd.World) (args : config.CommandLine)
    (s : session.Session) : runPrompts (reportTrace w args s) = [] := by
  unfold reportTrace
  split
  · rw [runPrompts_append, runPrompts_LogBlogOutputs]
    rfl
  · rfl

theorem runPrompts_completionPath : runPrompts completionPath = [] := rfl

/-- When initialisation succeeds, the trace of `main` begins with the start effects, which end
with the call of `r.Run`, and no other run is started afterwards. -/
theorem main_trace_start (w : cmd.World) (args : config.CommandLine) (a : agent.Agent)
    (s : session.Session) (hinit : InitOK w a s) :
    ∃ rest, (cmd.main w args).trace = startTrace args s ++ rest ∧ runPrompts rest = [] := by
  have hpl := printsAndLogs_processEvents (eventStream w args a s)
  cases h : (cmd.processEvents (eventStream w args a s)).2 with
  | completed =>
    obtain ⟨ht, -⟩ := main_completed w args a s hinit h
    refine ⟨_, by rw [ht, List.append_assoc, List.append_assoc], ?_⟩
    simp only [runPrompts_append, runPrompts_printsAndLogs hpl, runPrompts_reportTrace,
      runPrompts_completionPath, List.append_nil]
  | returned =>
    obtain ⟨ht, -⟩ := main_returned w args a s hinit h
    exact ⟨_, ht, runPrompts_printsAndLogs hpl⟩
  | panicked p =>
    obtain ⟨ht, -⟩ := main_panicked w args a s p hinit h
    exact ⟨_, ht, runPrompts_printsAndLogs hpl⟩

/-- The loop ends with the stream exactly when no pair carries an error and no event has a nil
first part. -/
theorem processEvents_completed_iff (stream : List (Option session.Event × Option Error)) :
    (cmd.processEvents stream).2 = .completed ↔
      noError stream ∧ ∀ p ∈ stream, firstPartIsNil p.1 = false := by
  constructor
  · intro h
    exact ⟨(processEvents_completed stream h).1, (processEvents_completed stream h).2.1⟩
  · rintro ⟨h1, h2⟩
    induction stream with
    | nil => rfl
    | cons p rest ih =>
      obtain ⟨event, err⟩ := p
      have he : err = none := h1 (event, err) (List.mem_cons_self _ _)
      subst he
      have hn : firstPartIsNil event = false := h2 (event, none) (List.mem_cons_self _ _)
      rw [processEvents_cons, loopBody_panic, hn]
      exact ih (fun q hq => h1 q (List.mem_cons_of_mem _ hq))
        (fun q hq => h2 q (List.mem_cons_of_mem _ hq))

/-- The exit codes of `main` as a function of the outcomes of its collaborators: the process
exits with code 1 if the API key is empty, or if model creation, `blog.Build`, runner creation
or session creation returns an error (each call being made once the earlier ones have
succeeded); in each of these cases the failure is logged as an error and no pipeline run is
started (`r.Run` is not called).  Exit code 1 occurs in these cases only.  When initialisation
succeeds, the run is started once, and the process ends with exit code 0 if the event loop ends
with the stream or returns at an error, and with exit code 2 if the loop panics. -/
theorem main_exit_codes_by_case (w : cmd.World) (args : config.CommandLine) :
    (config.GetAPIKey w.getenv = "" →
        (cmd.main w args).exitCode = 1 ∧ runPrompts (cmd.main w args).trace = [] ∧
        errorLogs (cmd.main w args).trace =
          [slog.Error "GOOGLE_API_KEY environment variable not set" []]) ∧
      (∀ err, config.GetAPIKey w.getenv ≠ "" →
        w.NewModel "gemini-2.5-flash-lite" (config.GetAPIKey w.getenv) = .error err →
        (cmd.main w args).exitCode = 1 ∧ runPrompts (cmd.main w args).trace = [] ∧
        errorLogs (cmd.main w args).trace =
          [slog.Error "Failed to create model" [("error", err)]]) ∧
      (∀ mdl err, config.GetAPIKey w.getenv ≠ "" →
        w.NewModel "gemini-2.5-flash-lite" (config.GetAPIKey w.getenv) = .ok mdl →
        blog.Build w.constructors mdl = .error err →
        (cmd.main w args).exitCode = 1 ∧ runPrompts (cmd.main w args).trace = [] ∧
        errorLogs (cmd.main w args).trace =
          [slog.Error "Failed to build agent" [("error", err)]]) ∧
      (∀ mdl a err, config.GetAPIKey w.getenv ≠ "" →
        w.NewModel "gemini-2.5-flash-lite" (config.GetAPIKey w.getenv) = .ok mdl →
        blog.Build w.constructors mdl = .ok a →
        w.runnerReject { AppName := "adk_starter_kit", Agent := a } = some err →
        (cmd.main w args).exitCode = 1 ∧ runPrompts (cmd.main w args).trace = [] ∧
        errorLogs (cmd.main w args).trace =
          [slog.Error "Failed to create runner" [("error", err)]]) ∧
      (∀ mdl a err, config.GetAPIKey w.getenv ≠ "" →
        w.NewModel "gemini-2.5-flash-lite" (config.GetAPIKey w.getenv) = .ok mdl →
        blog.Build w.constructors mdl = .ok a →
        w.runnerReject { AppName := "adk_starter_kit", Agent := a } = none →
        w.Create { AppName := "adk_starter_kit", UserID := "demo_user" } = .error err →
        (cmd.main w args).exitCode = 1 ∧ runPrompts (cmd.main w args).trace = [] ∧
        errorLogs (cmd.main w args).trace =
          [slog.Error "Failed to create session" [("error", err)]]) ∧
      (∀ a s, InitOK w a s →
        runPrompts (cmd.main w args).trace = [promptOf args] ∧
        ((cmd.processEvents (eventStream w args a s)).2 = .completed →
          (cmd.main w args).exitCode = 0) ∧
        ((cmd.processEvents (eventStream w args a s)).2 = .returned →
          (cmd.main w args).exitCode = 0) ∧
        (∀ p, (cmd.processEvents (eventStream w args a s)).2 = .panicked p →
          (cmd.main w args).exitCode = 2)) ∧
      ((cmd.main w args).exitCode = 1 ↔ ¬ ∃ a s, InitOK w a s) := by
  have c1 : config.GetAPIKey w.getenv = "" →
      (cmd.main w args).exitCode = 1 ∧ runPrompts (cmd.main w args).trace = [] ∧
      errorLogs (cmd.main w args).trace =
        [slog.Error "GOOGLE_API_KEY environment variable not set" []] := by
    intro hkey
    unfold cmd.main
    simp only [hkey, if_true]
    simp [runPrompts, errorLogs, Effect.isErrorLog, slog.Info, slog.Debug, slog.Error,
      slog.LevelInfo, slog.LevelDebug, slog.LevelError]
  have c2 : ∀ err, config.GetAPIKey w.getenv ≠ "" →
      w.NewModel "gemini-2.5-flash-lite" (config.GetAPIKey w.getenv) = .error err →
      (cmd.main w args).exitCode = 1 ∧ runPrompts (cmd.main w args).trace = [] ∧
      errorLogs (cmd.main w args).trace =
        [slog.Error "Failed to create model" [("error", err)]] := by
    intro err hkey hm
    unfold cmd.main
    simp only [hkey, if_false, hm]
    simp [runPrompts, errorLogs, Effect.isErrorLog, slog.Info, slog.Debug, slog.Error,
      slog.LevelInfo, slog.LevelDebug, slog.LevelError]
  have c3 : ∀ mdl err, config.GetAPIKey w.getenv ≠ "" →
      w.NewModel "gemini-2.5-flash-lite" (config.GetAPIKey w.getenv) = .ok mdl →
      blog.Build w.constructors mdl = .error err →
      (cmd.main w args).exitCode = 1 ∧ runPrompts (cmd.main w args).trace = [] ∧
      errorLogs (cmd.main w args).trace =
        [slog.Error "Failed to build agent" [("error", err)]] := by
    intro mdl err hkey hm hb
    unfold cmd.main
    simp only [hkey, if_false, hm, hb]
    simp [runPrompts, errorLogs, Effect.isErrorLog, slog.Info, slog.Debug, slog.Error,
      slog.LevelInfo, slog.LevelDebug, slog.LevelError]
  have c4 : ∀ mdl a err, config.GetAPIKey w.getenv ≠ "" →
      w.NewModel "gemini-2.5-flash-lite" (config.GetAPIKey w.getenv) = .ok mdl →
      blog.Build w.constructors mdl = .ok a →
      w.runnerReject { AppName := "adk_starter_kit", Agent := a } = some err →
      (cmd.main w args).exitCode = 1 ∧ runPrompts (cmd.main w args).trace = [] ∧
      errorLogs (cmd.main w args).trace =
        [slog.Error "Failed to create runner" [("error", err)]] := by
    intro mdl a err hkey hm hb hr
    unfold cmd.main
    simp only [hkey, if_false, hm, hb, hr]
    simp [runPrompts, errorLogs, Effect.isErrorLog, slog.Info, slog.Debug, slog.Error,
      slog.LevelInfo, slog.LevelDebug, slog.LevelError]
  have c5 : ∀ mdl a err, config.GetAPIKey w.getenv ≠ "" →
      w.NewModel "gemini-2.5-flash-lite" (config.GetAPIKey w.getenv) = .ok mdl →
      blog.Build w.constructors mdl = .ok a →
      w.runnerReject { AppName := "adk_starter_kit", Agent := a } = none →
      w.Create { AppName := "adk_starter_kit", UserID := "demo_user" } = .error err →
      (cmd.main w args).exitCode = 1 ∧ runPrompts (cmd.main w args).trace = [] ∧
      errorLogs (cmd.main w args).trace =
        [slog.Error "Failed to create session" [("error", err)]] := by
    intro mdl a err hkey hm hb hr hc
    unfold cmd.main
    simp only [hkey, if_false, hm, hb, hr, hc]
    simp [runPrompts, errorLogs, Effect.isErrorLog, slog.Info, slog.Debug, slog.Error,
      slog.LevelInfo, slog.LevelDebug, slog.LevelError]
  have c6 : ∀ a s, InitOK w a s →
      runPrompts (cmd.main w args).trace = [promptOf args] ∧
      ((cmd.processEvents (eventStream w args a s)).2 = .completed →
        (cmd.main w args).exitCode = 0) ∧
      ((cmd.processEvents (eventStream w args a s)).2 = .returned →
        (cmd.main w args).exitCode = 0) ∧
      (∀ p, (cmd.processEvents (eventStream w args a s)).2 = .panicked p →
        (cmd.main w args).exitCode = 2) := by
    intro a s hinit
    refine ⟨?_, fun h => (main_completed w args a s hinit h).2,
      fun h => (main_returned w args a s hinit h).2,
      fun p h => (main_panicked w args a s p hinit h).2⟩
    obtain ⟨rest, ht, hr⟩ := main_trace_start w args a s hinit
    rw [ht, runPrompts_append, runPrompts_startTrace, hr, List.append_nil]
  have c7 : ∀ a s, InitOK w a s → (cmd.main w args).exitCode ≠ 1 := by
    intro a s hinit h1
    cases h : (cmd.processEvents (eventStream w args a s)).2 with
    | completed =>
      rw [(c6 a s hinit).2.1 h] at h1
      cases h1
    | returned =>
      rw [(c6 a s hinit).2.2.1 h] at h1
      cases h1
    | panicked p =>
      rw [(c6 a s hinit).2.2.2 p h] at h1
      cases h1
  -- every world falls under one of the six cases
  have hcases : (∃ a s, InitOK w a s) ∨ (cmd.main w args).exitCode = 1 := by
    by_cases hkey : config.GetAPIKey w.getenv = ""
    · exact Or.inr (c1 hkey).1
    · cases hm : w.NewModel "gemini-2.5-flash-lite" (config.GetAPIKey w.getenv) with
      | error err => exact Or.inr (c2 err hkey hm).1
      | ok mdl =>
        cases hb : blog.Build w.constructors mdl with
        | error err => exact Or.inr (c3 mdl err hkey hm hb).1
        | ok a =>
          cases hr : w.runnerReject { AppName := "adk_starter_kit", Agent := a } with
          | some err => exact Or.inr (c4 mdl a err hkey hm hb hr).1
          | none =>
            cases hc : w.Create { AppName := "adk_starter_kit", UserID := "demo_user" } with
            | error err => exact Or.inr (c5 mdl a err hkey hm hb hr hc).1
            | ok s => exact Or.inl ⟨a, s, hkey, mdl, hm, hb, hr, hc⟩
  refine ⟨c1, c2, c3, c4, c5, c6, ?_⟩
  constructor
  · rintro h1 ⟨a, s, hinit⟩
    exact c7 a s hinit h1
  · intro hno
    rcases hcases with h | h
    · exact absurd h hno
    · exact h

/-- C1, the code at the failing input.  Initialisation succeeds (the API key is set, model
creation, `blog.Build`, runner creation and session creation return no error), and the stream
delivers three events without any error, the Writer's with a nil part.  The run is started, the
loop panics in the body of the Writer's event (the defect of `main.go:119`), and the process
ends with exit code 2, not 0: the reporter is not invoked and `Completed!` is not printed. -/
theorem main_exit_on_nil_part :
    InitOK (demoWorld nilPartStream (.ok outlineOnly)) demoAgent { ID := "session-1" } ∧
      noError nilPartStream ∧
      (cmd.processEvents nilPartStream).2 = .panicked .nilDereference ∧
      (cmd.main (demoWorld nilPartStream (.ok outlineOnly)) noFlags).exitCode = 2 ∧
      runPrompts (cmd.main (demoWorld nilPartStream (.ok outlineOnly)) noFlags).trace =
        [blog.DefaultPrompt] ∧
      reporterInvoked (cmd.main (demoWorld nilPartStream (.ok outlineOnly)) noFlags).trace =
        false ∧
      Effect.println "Completed!" ∉
        (cmd.main (demoWorld nilPartStream (.ok outlineOnly)) noFlags).trace :=
  ⟨InitOK_demoWorld _ _, by decide, by decide, by decide, by decide, by decide, by decide⟩

theorem main_congr_ParseFlags (w : cmd.World) (args1 args2 : config.CommandLine)
    (h : config.ParseFlags args1 = config.ParseFlags args2) : cmd.main w args1 = cmd.main w args2 := by
  unfold cmd.main
  simp only [h]

/-- C8. When initialisation succeeds, `main` starts exactly one run, and the prompt it passes to
that run is the value of the `--prompt` flag when that value is not empty and
`blog.DefaultPrompt()` otherwise; the default of the flag is the empty string, so omitting the
flag gives the built-in prompt; the prompt handed to the pipeline is never the empty string; and
passing `--prompt ""` is indistinguishable from omitting the flag (the whole run of `main` is
the same, in every world). -/
theorem main_prompt (w : cmd.World) (args : config.CommandLine) (a : agent.Agent)
    (s : session.Session) (hinit : InitOK w a s) :
    runPrompts (cmd.main w args).trace =
        [if (config.ParseFlags args).Prompt = "" then blog.DefaultPrompt
         else (config.ParseFlags args).Prompt] ∧
      (∀ p, args.prompt = some p → p ≠ "" → runPrompts (cmd.main w args).trace = [p]) ∧
      (args.prompt = some "" → runPrompts (cmd.main w args).trace = [blog.DefaultPrompt]) ∧
      (args.prompt = none → (config.ParseFlags args).Prompt = "" ∧
        runPrompts (cmd.main w args).trace = [blog.DefaultPrompt]) ∧
      (∀ p ∈ runPrompts (cmd.main w args).trace, p ≠ "") ∧
      Effect.run "demo_user" s.ID
          (if (config.ParseFlags args).Prompt = "" then blog.DefaultPrompt
           else (config.ParseFlags args).Prompt) genai.RoleUser ∈ (cmd.main w args).trace ∧
      cmd.main w { args with prompt := some "" } = cmd.main w { args with prompt := none } := by
  have hd : blog.DefaultPrompt ≠ "" := by decide
  obtain ⟨rest, ht, hr⟩ := main_trace_start w args a s hinit
  have hrun : runPrompts (cmd.main w args).trace = [promptOf args] := by
    rw [ht, runPrompts_append, runPrompts_startTrace, hr, List.append_nil]
  refine ⟨hrun, ?_, ?_, ?_, ?_, ?_, ?_⟩
  · intro p hp hne
    rw [hrun]
    simp [promptOf, config.ParseFlags, hp, hne]
  · intro hp
    rw [hrun]
    simp [promptOf, config.ParseFlags, hp]
  · intro hp
    rw [hrun]
    simp [promptOf, config.ParseFlags, hp]
  · intro p hp
    rw [hrun, List.mem_singleton] at hp
    subst hp
    unfold promptOf
    split
    · exact hd
    · assumption
  · rw [ht]
    apply List.mem_append_left
    simp [startTrace, promptOf]
  · exact main_congr_ParseFlags w _ _ rfl

/-- C8 at concrete command lines, in a world where initialisation succeeds: `--prompt "Write
about X"` is passed on unchanged; without the flag, and with `--prompt ""`, the run gets the
built-in sample prompt. -/
theorem main_prompt_witness :
    runPrompts (cmd.main (demoWorld allSucceed (.ok outlineOnly))
        { logLevel := none, agentLogger := none, prompt := some "Write about X" }).trace =
        ["Write about X"] ∧
      runPrompts (cmd.main (demoWorld allSucceed (.ok outlineOnly)) noFlags).trace =
        ["Write a blog post about the benefits of multi-agent systems for software developers"] ∧
      runPrompts (cmd.main (demoWorld allSucceed (.ok outlineOnly))
        { logLevel := none, agentLogger := none, prompt := some "" }).trace =
        ["Write a blog post about the benefits of multi-agent systems for software developers"] :=
  ⟨(main_prompt (demoWorld allSucceed (.ok outlineOnly))
        { logLevel := none, agentLogger := none, prompt := some "Write about X" } demoAgent
        { ID := "session-1" } (InitOK_demoWorld _ _)).2.1 "Write about X" rfl (by decide),
    ((main_prompt (demoWorld allSucceed (.ok outlineOnly)) noFlags demoAgent
        { ID := "session-1" } (InitOK_demoWorld _ _)).2.2.2.1 rfl).2,
    (main_prompt (demoWorld allSucceed (.ok outlineOnly))
        { logLevel := none, agentLogger := none, prompt := some "" } demoAgent
        { ID := "session-1" } (InitOK_demoWorld _ _)).2.2.1 rfl⟩


/-! ## The driver when the stream delivers an error -/

theorem reporterInvoked_append (t1 t2 : List Effect) :
    reporterInvoked (t1 ++ t2) = (reporterInvoked t1 || reporterInvoked t2) := by
  simp [reporterInvoked]

theorem reporterInvoked_startTrace (args : config.CommandLine) (s : session.Session) :
    reporterInvoked (startTrace args s) = false := by
  simp [reporterInvoked, startTrace, slog.Info, slog.Debug]

theorem processEvents_completed_effects (stream : List (Option session.Event × Option Error))
    (h : (cmd.processEvents stream).2 = .completed) :
    ∀ e ∈ (cmd.processEvents stream).1,
      (∃ format args, e = .printf format args) ∨ (∃ msg attrs, e = slog.Debug msg attrs) := by
  rw [(processEvents_completed stream h).2.2]
  intro e he
  simp only [List.mem_flatMap] at he
  obtain ⟨p, -, hp⟩ := he
  exact loopBody_effects p.1 e hp

theorem reporterInvoked_LogBlogOutputs (al : logger.AgentLogger) (sid : String) :
    reporterInvoked (al.LogBlogOutputs sid) = true := by
  unfold logger.AgentLogger.LogBlogOutputs
  cases h : al.sessionService { AppName := al.appName, UserID := al.userID, SessionID := sid } with
  | error err => simp [reporterInvoked]
  | ok st => simp [reporterInvoked]

/-- C2, as amended.  When initialisation has succeeded and the event loop reaches a pair of the
stream that carries an error (it has got through the pairs `pre` before it), the driver logs
that error, once, and returns from `main` at once with exit code 0, whatever the agent-logger
setting: the reporter `LogBlogOutputs` is not invoked and the completion path is not reached
(`Completed!` is not printed, the finish of the application is not logged).  When the loop
reaches the end of the stream and the agent logger is enabled, the driver invokes
`LogBlogOutputs`, which, on a retrieved session state that holds `blog_outline` and lacks
`blog_draft` and `final_blog`, logs an error for each of the two missing keys, and the driver
then reaches its completion path and ends with exit code 0. -/
theorem main_stream_error (w : cmd.World) (args : config.CommandLine) (a : agent.Agent)
    (s : session.Session) (hinit : InitOK w a s) :
    (∀ pre event err post,
        eventStream w args a s = pre ++ (event, some err) :: post →
        (cmd.processEvents pre).2 = .completed →
        (cmd.main w args).trace =
          startTrace args s ++ (cmd.processEvents pre).1 ++
            [slog.Error "Error during agent execution" [("error", err)]] ∧
        (cmd.main w args).exitCode = 0 ∧
        reporterInvoked (cmd.main w args).trace = false ∧
        stateReads (cmd.main w args).trace = [] ∧
        Effect.println "Completed!" ∉ (cmd.main w args).trace ∧
        slog.Info "Application finished successfully" [] ∉ (cmd.main w args).trace ∧
        errorLogs (cmd.main w args).trace =
          [slog.Error "Error during agent execution" [("error", err)]]) ∧
      (∀ st outline e1 e2,
        (cmd.processEvents (eventStream w args a s)).2 = .completed →
        (config.ParseFlags args).AgentLogger = true →
        w.Get { AppName := "adk_starter_kit", UserID := "demo_user", SessionID := s.ID } =
          .ok st →
        st.Get "blog_outline" = .ok outline →
        st.Get "blog_draft" = .error e1 →
        st.Get "final_blog" = .error e2 →
        reporterInvoked (cmd.main w args).trace = true ∧
        errorLogs (cmd.main w args).trace =
          [slog.Error "Blog draft not found in session state" [("error", e1)],
            slog.Error "Final blog not found in session state" [("error", e2)]] ∧
        completionPath <:+ (cmd.main w args).trace ∧
        (cmd.main w args).exitCode = 0) := by
  constructor
  · intro pre event err post hstream hpre
    have hF := processEvents_first_error pre post event err hpre
    rw [← hstream] at hF
    have hloop : (cmd.processEvents (eventStream w args a s)).2 = .returned := by rw [hF]
    obtain ⟨ht, hx⟩ := main_returned w args a s hinit hloop
    rw [hF] at ht
    have ht2 : (cmd.main w args).trace =
        startTrace args s ++ (cmd.processEvents pre).1 ++
          [slog.Error "Error during agent execution" [("error", err)]] := by
      rw [ht, List.append_assoc]
    have hpl := printsAndLogs_processEvents pre
    have hpe := processEvents_completed_effects pre hpre
    refine ⟨ht2, hx, ?_, ?_, ?_, ?_, ?_⟩
    · rw [ht2, reporterInvoked_append, reporterInvoked_append, reporterInvoked_startTrace,
        reporterInvoked_printsAndLogs hpl]
      rfl
    · rw [ht2, stateReads_append, stateReads_append, stateReads_startTrace,
        stateReads_printsAndLogs hpl]
      rfl
    · rw [ht2]
      intro hm
      simp only [List.mem_append, List.mem_singleton] at hm
      rcases hm with (hm | hm) | hm
      · simp [startTrace, slog.Info, slog.Debug] at hm
      · exact println_not_mem_printsAndLogs hpl _ hm
      · cases hm
    · rw [ht2]
      intro hm
      simp only [List.mem_append, List.mem_singleton] at hm
      rcases hm with (hm | hm) | hm
      · simp [startTrace, slog.Info, slog.Debug] at hm
      · rcases hpe _ hm with ⟨f, fargs, h1⟩ | ⟨m, attrs, h1⟩
        · cases h1
        · simp [slog.Info, slog.Debug, slog.LevelInfo, slog.LevelDebug] at h1
      · simp [slog.Info, slog.Error, slog.LevelInfo, slog.LevelError] at hm
    · rw [ht2, errorLogs_append, errorLogs_append, errorLogs_startTrace,
        errorLogs_completed pre hpre]
      rfl
  · intro st outline e1 e2 hloop hlog hget h1 h2 h3
    obtain ⟨ht, hx⟩ := main_completed w args a s hinit hloop
    have hal : (logger.NewAgentLogger w.Get "adk_starter_kit" "demo_user"
        (logger.New ((config.ParseFlags args).GetLogLevel w.caseTable))).sessionService
          { AppName := "adk_starter_kit", UserID := "demo_user", SessionID := s.ID } = .ok st :=
      hget
    refine ⟨?_, ?_, ⟨_, ht.symm⟩, hx⟩
    · rw [ht, reportTrace_enabled w args s hlog]
      simp only [reporterInvoked_append]
      rw [show ∀ (e : Effect) (t : List Effect), reporterInvoked (e :: t) =
          (reporterInvoked [e] || reporterInvoked t) from fun e t => by simp [reporterInvoked]]
      rw [reporterInvoked_LogBlogOutputs]
      simp
    · rw [ht, reportTrace_enabled w args s hlog]
      simp only [errorLogs_append, errorLogs_startTrace, errorLogs_completed _ hloop,
        errorLogs_completionPath, List.nil_append, List.append_nil]
      rw [show ∀ (t : List Effect),
          errorLogs (slog.Info "Agent logger enabled, retrieving session outputs" [] :: t) =
            errorLogs t from fun t => by
              simp [errorLogs, Effect.isErrorLog, slog.Info, slog.LevelInfo, slog.LevelError]]
      rw [errorLogs_LogBlogOutputs _ s.ID st hal]
      simp [h1, h2, h3]

/-- C2, as amended, at concrete worlds.  On the stream on which the Writer's model call fails
after the Outline step, with the agent logger enabled, `main` ends with exit code 0 without
invoking the reporter and logs the stream's error; on a stream that the loop gets through to its
end, with a state that holds `blog_outline` only, the reporter runs and logs the two missing
keys. -/
theorem main_stream_error_witness :
    ((cmd.main (demoWorld writerFails (.ok outlineOnly)) noFlags).exitCode = 0 ∧
        reporterInvoked (cmd.main (demoWorld writerFails (.ok outlineOnly)) noFlags).trace =
          false ∧
        errorLogs (cmd.main (demoWorld writerFails (.ok outlineOnly)) noFlags).trace =
          [slog.Error "Error during agent execution" [("error", "model call failed")]]) ∧
      (reporterInvoked (cmd.main (demoWorld allSucceed (.ok outlineOnly)) noFlags).trace = true ∧
        errorLogs (cmd.main (demoWorld allSucceed (.ok outlineOnly)) noFlags).trace =
          [slog.Error "Blog draft not found in session state"
              [("error", session.ErrStateKeyNotExist)],
            slog.Error "Final blog not found in session state"
              [("error", session.ErrStateKeyNotExist)]]) :=
  have h1 := (main_stream_error (demoWorld writerFails (.ok outlineOnly)) noFlags demoAgent
    { ID := "session-1" } (InitOK_demoWorld _ _)).1
    [(some outlineEvent, none)]
    none "model call failed" [] rfl (by decide)
  have h2 := (main_stream_error (demoWorld allSucceed (.ok outlineOnly)) noFlags demoAgent
    { ID := "session-1" } (InitOK_demoWorld _ _)).2
    outlineOnly "An outline" session.ErrStateKeyNotExist session.ErrStateKeyNotExist
    (by decide) rfl rfl rfl rfl rfl
  ⟨⟨h1.2.1, h1.2.2.1, h1.2.2.2.2.2.2⟩, ⟨h2.1, h2.2.1⟩⟩

set_option maxRecDepth 100000 in
/-- C2 as stated fails.  In a world where initialisation succeeds, the agent logger is enabled
(no flags) and the stream yields the Outline event and then the error of the Writer's model
call, with `blog_outline` alone in the session state: `main` logs the stream's error and
returns.  The reporter is not invoked (no session lookup, no state read, no error logged for
`blog_draft` or `final_blog`), `Completed!` is not printed and the finish of the application is
not logged. -/
theorem main_stream_error_counterexample :
    (config.ParseFlags noFlags).AgentLogger = true ∧
      ¬ noError writerFails ∧
      InitOK (demoWorld writerFails (.ok outlineOnly)) demoAgent { ID := "session-1" } ∧
      eventStream (demoWorld writerFails (.ok outlineOnly)) noFlags demoAgent
        { ID := "session-1" } = writerFails ∧
      reporterInvoked (cmd.main (demoWorld writerFails (.ok outlineOnly)) noFlags).trace = false ∧
      stateReads (cmd.main (demoWorld writerFails (.ok outlineOnly)) noFlags).trace = [] ∧
      errorLogs (cmd.main (demoWorld writerFails (.ok outlineOnly)) noFlags).trace =
        [slog.Error "Error during agent execution" [("error", "model call failed")]] ∧
      Effect.println "Completed!" ∉
        (cmd.main (demoWorld writerFails (.ok outlineOnly)) noFlags).trace ∧
      slog.Info "Application finished successfully" [] ∉
        (cmd.main (demoWorld writerFails (.ok outlineOnly)) noFlags).trace ∧
      (cmd.main (demoWorld writerFails (.ok outlineOnly)) noFlags).trace.getLast? =
        some (slog.Error "Error during agent execution" [("error", "model call failed")]) :=
  ⟨rfl, by decide, InitOK_demoWorld _ _, rfl, by decide, by decide, by decide, by decide,
    by decide, by decide⟩

/-- Whatever the configured level, the logger set up by `main` writes error records: an error
that is logged is visible on standard output. -/
theorem error_records_written (caseTable : Char → Char) (c : config.Config) :
    (logger.New (c.GetLogLevel caseTable)).Enabled slog.LevelError = true := by
  unfold config.Config.GetLogLevel logger.New slog.Logger.Enabled
  simp only
  split_ifs <;> decide

/-- The exit codes at concrete worlds: without API key the process exits with code 1 and starts
no run; when the agent constructor rejects the steps, `Build` fails and the process exits with
code 1 and starts no run; when initialisation succeeds and the loop ends with the stream, or
returns at the Writer's error, the process exits with code 0. -/
theorem main_exit_codes_by_case_examples :
    ((cmd.main noKeyWorld noFlags).exitCode = 1 ∧
        runPrompts (cmd.main noKeyWorld noFlags).trace = []) ∧
      ((cmd.main rejectingWorld noFlags).exitCode = 1 ∧
        runPrompts (cmd.main rejectingWorld noFlags).trace = [] ∧
        errorLogs (cmd.main rejectingWorld noFlags).trace =
          [slog.Error "Failed to build agent"
            [("error", "failed to create outline agent: invalid agent")]]) ∧
      (cmd.main (demoWorld allSucceed (.ok outlineOnly)) noFlags).exitCode = 0 ∧
      (cmd.main (demoWorld writerFails (.ok outlineOnly)) noFlags).exitCode = 0 :=
  ⟨⟨((main_exit_codes_by_case noKeyWorld noFlags).1 rfl).1,
      ((main_exit_codes_by_case noKeyWorld noFlags).1 rfl).2.1⟩,
    (main_exit_codes_by_case rejectingWorld noFlags).2.2.1 { Name := "gemini-2.5-flash-lite" }
      "failed to create outline agent: invalid agent" (by decide) rfl rfl,
    ((main_exit_codes_by_case (demoWorld allSucceed (.ok outlineOnly)) noFlags).2.2.2.2.2.1
      demoAgent { ID := "session-1" } (InitOK_demoWorld _ _)).2.1 (by decide),
    ((main_exit_codes_by_case (demoWorld writerFails (.ok outlineOnly)) noFlags).2.2.2.2.2.1
      demoAgent { ID := "session-1" } (InitOK_demoWorld _ _)).2.2.1 (by decide)⟩
